import Mathlib

/-!
# priscilla-hipchat: directory, event router and auth token

A shallow embedding of `src/priscilla-hipchat.go` (the adapter: directory
maps, the `select` loop of `run` and its cases, `groupMessage`,
`establishConnection` and the listener `listen`) and of `Conn.Auth` from
`src/xmpp/xmpp.go`.

Conventions of the embedding

* A Go `map[string]V` is its lookup function `String → Option V`; `none` is
  an absent key.  The maps of the adapter hold `*hipchatUser` pointers whose
  pointees are never written after they are stored, so a pointer is modelled
  by the record it points to.
* Go strings of the adapter are Lean strings; the library functions
  `strings.Split` and `strings.Replace` are modelled on character lists.  In
  the package `xmpp` a Go string is the list of its bytes.
* `regexp.MatchString` and the REST call `api.User.View` are parameters of
  the router.
* Writes to the orchestration channel and to the XMPP connection are
  collected as a list of `Effect`s, in program order; the calls of the
  listener, which runs as a goroutine of its own, as a list of
  `ListenEffect`s.  What the chat service sends is a script given to the
  listener.
* A Go run-time panic is `Except.error`.
* Logger calls are left out.
-/

namespace Hipchat

/-! ## Go maps -/

/-- A Go `map[string]V`, as its lookup function. -/
abbrev GoMap (V : Type) := String → Option V

/-- The map `make(map[string]V)`. -/
def GoMap.empty {V : Type} : GoMap V := fun _ => none

/-- The assignment `m[k] = v`. -/
def GoMap.set {V : Type} (m : GoMap V) (k : String) (v : V) : GoMap V :=
  fun k' => if k' = k then some v else m k'

/-- The one-value index expression `m[k]`: the zero value for an absent key. -/
def GoMap.index {V : Type} [Inhabited V] (m : GoMap V) (k : String) : V :=
  (m k).getD default

/-! ## Library functions of Go used by the adapter -/

/-- The pieces of a character list between the occurrences of `sep`. -/
def splitChars (sep : Char) : List Char → List (List Char)
  | [] => [[]]
  | c :: cs =>
    if c = sep then [] :: splitChars sep cs
    else
      match splitChars sep cs with
      | [] => [[c]]
      | h :: t => (c :: h) :: t

/-- Go `strings.Split(s, sep)` for a separator of one character, which is
how the adapter calls it (on `/`, `@` and `_`). -/
def stringsSplit (s : String) (sep : Char) : List String :=
  (splitChars sep s.data).map String.mk

/-- The scan of `strings.Replace(s, old, new, -1)` for a non-empty `old`:
the leftmost occurrence is replaced, the scan resumes behind it.  The counter
is the number of characters of a matched occurrence still to be dropped. -/
def replaceFrom (old new : List Char) : Nat → List Char → List Char
  | _, [] => []
  | skip + 1, _ :: cs => replaceFrom old new skip cs
  | 0, c :: cs =>
    if old.isPrefixOf (c :: cs) then new ++ replaceFrom old new (old.length - 1) cs
    else c :: replaceFrom old new 0 cs

/-- Go `strings.Replace(s, old, new, -1)`: `s` itself when `old == new`, the
replacement put before every character and at the end when `old` is empty, the
left-to-right scan otherwise. -/
def stringsReplaceAll (s old new : String) : String :=
  if old = new then s
  else if old.data = [] then ⟨new.data ++ s.data.flatMap (fun c => c :: new.data)⟩
  else ⟨replaceFrom old.data new.data 0 s.data⟩

/-- The Go index expression `l[i]` on a slice: a run-time panic when `i` is
out of range. -/
def goIndex {α : Type} (l : List α) (i : Nat) : Except String α :=
  match l[i]? with
  | some a => Except.ok a
  | none => Except.error "index out of range"

/-- A pattern without regular-expression metacharacters, matched the way
`regexp.MatchString` matches it: as a substring. -/
def literalMatchString (pattern s : String) : Bool :=
  decide (pattern.data <:+: s.data)

/-- Letters and digits of ASCII. -/
def isAlnum (c : Char) : Bool :=
  ('a' ≤ c ∧ c ≤ 'z') ∨ ('A' ≤ c ∧ c ≤ 'Z') ∨ ('0' ≤ c ∧ c ≤ '9')

/-- What the router needs of `regexp.MatchString`, for a matcher `m` returning
the boolean result (`false` also when the pattern does not compile): a pattern
made of `@` followed by letters and digits matches exactly the strings that
contain it. -/
def MatchesLiterally (m : String → String → Bool) : Prop :=
  ∀ (h s : String), (∀ c ∈ h.data, isAlnum c = true) →
    (m ("@" ++ h) s = true ↔ ("@" ++ h).data <:+: s.data)

/-! ## Data model of `priscilla-hipchat.go` -/

/-- The record `hipchatUser`; the four fields are the ones `populateUser`
fills and the router reads. -/
structure hipchatUser where
  Jid : String
  Name : String
  Mention : String
  Email : String
deriving DecidableEq, Repr, Inhabited

/-- The struct `hipchatClient`, without the two connection handles `xmpp` and
`api`, whose traffic is modelled by effects and by a parameter. -/
structure hipchatClient where
  username : String
  password : String
  resource : String
  id : String
  nick : String
  usersByMention : GoMap hipchatUser
  usersByName : GoMap hipchatUser
  usersByJid : GoMap hipchatUser
  usersByEmail : GoMap hipchatUser
  roomsByName : GoMap String
  roomsById : GoMap String
  host : String
  jid : String
  accountId : String
  apiHost : String
  chatHost : String
  mucHost : String
  webHost : String
  token : String
  mention : String
  aMention : String

/-- The struct `xmppMessage` (without `XMLName`); the field `Type` is written
`Type_` here and in the two query blocks. -/
structure xmppMessage where
  Type_ : String
  From : String
  FromJid : String
  To : String
  Id : String
  Body : String
  RoomName : String
  RoomId : String
deriving DecidableEq, Repr, Inhabited

/-- The fields of `prisclient.UserInfo` the router fills. -/
structure UserInfo where
  Id : String
  Name : String
  Mention : String
  Email : String
deriving DecidableEq, Repr, Inhabited

/-- The fields of `prisclient.MessageBlock` the adapter reads or writes. -/
structure MessageBlock where
  Message : String
  From : String
  Room : String
  Mentioned : Bool
  Stripped : String
  User : Option UserInfo
  MentionNotify : List String
deriving DecidableEq, Repr, Inhabited

/-- The fields of `prisclient.CommandBlock` the adapter reads or writes. -/
structure CommandBlock where
  Id : String
  Action : String
  Type_ : String
  Data : String
  Map : GoMap String
  Error : String

/-- The fields of `prisclient.Query` the adapter reads or writes; the two
blocks are pointers and may be nil. -/
structure Query where
  Type_ : String
  Source : String
  To : String
  Command : Option CommandBlock
  Message : Option MessageBlock

/-- The fields of `hipchat.User` that `populateUser` copies. -/
structure apiUser where
  XmppJid : String
  Name : String
  MentionName : String
  Email : String
deriving DecidableEq, Repr, Inhabited

/-- An element of the slice returned by `xmpp.Discover`. -/
structure Room where
  Name : String
  Id : String
deriving DecidableEq, Repr, Inhabited

/-- What a handler writes: a query on the channel `toPris`, or a call on the
XMPP connection. -/
inductive Effect where
  | toPris (q : Query)
  | xmppJoin (jid nick : String) (rooms : List String)
  | xmppEncode (m : xmppMessage)
  | xmppKeepAlive

/-- The outcome of one pass through the `select` of `run`: the client, what
was written, and whether `break mainLoop` was reached. -/
structure StepResult where
  hc : hipchatClient
  effects : List Effect
  stop : Bool

/-! ## The user directory -/

/-- The method `updateUserInfo`: four map assignments, in source order. -/
def updateUserInfo (c : hipchatClient) (info : hipchatUser) : hipchatClient :=
  let c := { c with usersByMention := c.usersByMention.set info.Mention info }
  let c := { c with usersByJid := c.usersByJid.set info.Jid info }
  let c := { c with usersByName := c.usersByName.set info.Name info }
  { c with usersByEmail := c.usersByEmail.set info.Email info }

/-- A client as `main` builds it: empty maps, resource `bot`. -/
def newClient (user pass nick : String) : hipchatClient :=
  { username := user, password := pass, resource := "bot",
    id := user ++ "@" ++ "chat.hipchat.com", nick := nick,
    usersByMention := GoMap.empty, usersByName := GoMap.empty,
    usersByJid := GoMap.empty, usersByEmail := GoMap.empty,
    roomsByName := GoMap.empty, roomsById := GoMap.empty,
    host := "chat.hipchat.com", jid := "", accountId := "", apiHost := "",
    chatHost := "", mucHost := "", webHost := "", token := "",
    mention := "", aMention := "" }

/-! ## The router: the cases of the `select` loop of `run` -/

/-- Lines 251-252 of `populateUser`: the user id cut out of an identity, the
piece behind the first `_` of the part before the first `@`. -/
def populateUser_id (jid : String) : Except String String :=
  match goIndex (stringsSplit jid '@') 0 with
  | Except.error p => Except.error p
  | Except.ok idFull => goIndex (stringsSplit idFull '_') 1

/-- The method `populateUser`.  `view` is `c.api.User.View`.  The result is a
panic when `strings.Split(idFull, "_")[1]` is out of range, and otherwise the
client together with the returned error. -/
def populateUser (view : String → Except String apiUser) (c : hipchatClient)
    (jid : String) : Except String (hipchatClient × Option String) :=
  match populateUser_id jid with
  | Except.error p => Except.error p
  | Except.ok id =>
      match view id with
      | Except.error err => Except.ok (c, some err)
      | Except.ok user =>
        let hcUser : hipchatUser :=
          { Jid := user.XmppJid, Name := user.Name, Mention := user.MentionName,
            Email := user.Email }
        let c := { c with usersByMention := c.usersByMention.set hcUser.Mention hcUser }
        let c := { c with usersByName := c.usersByName.set hcUser.Name hcUser }
        let c := { c with usersByJid := c.usersByJid.set hcUser.Jid hcUser }
        let c := { c with usersByEmail := c.usersByEmail.set hcUser.Email hcUser }
        Except.ok (c, none)

/-- Lines 308-313 of `run`: the profile lookup of a sender whose identity is
not in `usersByJid`; the error returned by `populateUser` is dropped. -/
def run_senderLookup (view : String → Except String apiUser) (hc : hipchatClient)
    (msg : xmppMessage) : Except String hipchatClient :=
  if msg.FromJid ≠ "" then
    match hc.usersByJid msg.FromJid with
    | some _ => Except.ok hc
    | none =>
      match populateUser view hc msg.FromJid with
      | Except.error p => Except.error p
      | Except.ok (hc1, _) => Except.ok hc1
  else Except.ok hc

/-- Lines 303-306 of `run`: the nickname, the second piece of the sender
address when there is one. -/
def run_fromNick (fromSplit : List String) : String :=
  if fromSplit.length > 1 then fromSplit.getD 1 "" else ""

/-- Lines 321-346 of `run`: the query built for a chat message. -/
def run_clientQuery (matchString : String → String → Bool) (hc : hipchatClient)
    (msg : xmppMessage) (fromRoom fromNick : String) : Query :=
  let mentioned := matchString ("@" ++ hc.mention) msg.Body
  let block : MessageBlock :=
    { Message := msg.Body, From := fromNick, Room := hc.roomsById.index fromRoom,
      Mentioned := mentioned,
      Stripped := stringsReplaceAll msg.Body hc.aMention "",
      User := none, MentionNotify := [] }
  let block :=
    if mentioned then
      { block with Message := stringsReplaceAll msg.Body ("@" ++ hc.mention) "" }
    else block
  let block :=
    match hc.usersByName fromNick with
    | some user =>
      { block with User := some { Id := user.Jid, Name := user.Name,
                                  Mention := user.Mention, Email := user.Email } }
    | none => block
  { Type_ := "message", Source := "", To := "server", Command := none,
    Message := some block }

/-- The case `msg := <-messageFromHC` of `run`. -/
def run_messageFromHC (matchString : String → String → Bool)
    (view : String → Except String apiUser) (hc : hipchatClient) (msg : xmppMessage) :
    Except String StepResult :=
  let fromSplit := stringsSplit msg.From '/'
  match goIndex fromSplit 0 with
  | Except.error p => Except.error p
  | Except.ok fromRoom =>
    let fromNick := run_fromNick fromSplit
    match run_senderLookup view hc msg with
    | Except.error p => Except.error p
    | Except.ok hc =>
      if msg.Body ≠ "" ∧ fromNick ≠ hc.nick then
        Except.ok { hc := hc,
                    effects := [Effect.toPris
                      (run_clientQuery matchString hc msg fromRoom fromNick)],
                    stop := false }
      else if msg.RoomName ≠ "" then
        let hc := { hc with roomsByName := hc.roomsByName.set msg.RoomName msg.From }
        let hc := { hc with roomsById := hc.roomsById.set msg.From msg.RoomName }
        Except.ok { hc := hc, effects := [Effect.xmppJoin hc.jid hc.nick [msg.From]],
                    stop := false }
      else Except.ok { hc := hc, effects := [], stop := false }

/-- The loop over `message.MentionNotify` in `groupMessage`. -/
def groupMessage_body (c : hipchatClient) (body : String) : List String → String
  | [] => body
  | name :: rest =>
    match c.usersByName name with
    | some user => groupMessage_body c (body ++ " @" ++ user.Mention) rest
    | none => groupMessage_body c body rest

/-- The method `groupMessage`: the stanza handed to `c.xmpp.Encode`.  `rid` is
the value of `prisclient.RandomId()`. -/
def groupMessage (c : hipchatClient) (rid : String) (message : MessageBlock) :
    xmppMessage :=
  let xmppMsg : xmppMessage :=
    { Type_ := "groupchat", From := c.jid,
      FromJid := "",
      To := c.roomsByName.index message.Room ++ "/" ++ c.nick,
      Id := rid, Body := message.Message, RoomName := "", RoomId := "" }
  if message.MentionNotify.length > 0 then
    { xmppMsg with Body := groupMessage_body c xmppMsg.Body message.MentionNotify }
  else xmppMsg

/-- Lines 380-389 of `run`: the switch on the lookup kind of a `user_request`;
`none` is `exists == false`, also for a kind that has no case. -/
def run_userLookup (hc : hipchatClient) (cmd : CommandBlock) : Option hipchatUser :=
  if cmd.Type_ = "user" then hc.usersByName cmd.Data
  else if cmd.Type_ = "mention" then hc.usersByMention cmd.Data
  else if cmd.Type_ = "email" then hc.usersByEmail cmd.Data
  else if cmd.Type_ = "id" then hc.usersByJid cmd.Data
  else none

/-- Lines 375-397 of `run`: a `user_request` answered into `response`. -/
def run_userRequest (hc : hipchatClient) (cmd response : CommandBlock) : CommandBlock :=
  let response := { response with Type_ := "user" }
  match run_userLookup hc cmd with
  | some user =>
    let response := { response with Map := response.Map.set "id" user.Jid }
    let response := { response with Map := response.Map.set "name" user.Name }
    let response := { response with Map := response.Map.set "mention" user.Mention }
    { response with Map := response.Map.set "email" user.Email }
  | none => { response with Error := "User not found" }

/-- Lines 398-418 of `run`: a `room_request` answered into `response`. -/
def run_roomRequest (hc : hipchatClient) (cmd response : CommandBlock) : CommandBlock :=
  let response := { response with Type_ := "room" }
  if cmd.Type_ = "name" then
    match hc.roomsByName cmd.Data with
    | some id =>
      let response := { response with Map := response.Map.set "id" id }
      { response with Map := response.Map.set "name" cmd.Data }
    | none => { response with Error := "Room not found" }
  else if cmd.Type_ = "id" then
    match hc.roomsById cmd.Data with
    | some name =>
      let response := { response with Map := response.Map.set "name" name }
      { response with Map := response.Map.set "id" cmd.Data }
    | none => { response with Error := "Room not found" }
  else response

/-- The case `query := <-fromPris` of `run`.  A nil `Command` or `Message`
block is a nil-pointer panic. -/
def run_fromPris (hc : hipchatClient) (rid : String) (query : Query) :
    Except String StepResult :=
  if query.Type_ = "command" then
    match query.Command with
    | none => Except.error "nil pointer dereference"
    | some cmd =>
      if cmd.Action = "disengage" then
        Except.ok { hc := hc, effects := [], stop := true }
      else if cmd.Action = "user_request" ∨ cmd.Action = "room_request" then
        let block : CommandBlock :=
          { Id := cmd.Id, Action := "info", Type_ := "", Data := "",
            Map := GoMap.empty, Error := "" }
        let block :=
          if cmd.Action = "user_request" then run_userRequest hc cmd block
          else run_roomRequest hc cmd block
        let response : Query :=
          { Type_ := "command", Source := "", To := query.Source,
            Command := some block, Message := none }
        Except.ok { hc := hc, effects := [Effect.toPris response], stop := false }
      else Except.ok { hc := hc, effects := [], stop := false }
  else if query.Type_ = "message" then
    match query.Message with
    | none => Except.error "nil pointer dereference"
    | some message =>
      Except.ok { hc := hc, effects := [Effect.xmppEncode (groupMessage hc rid message)],
                  stop := false }
  else Except.ok { hc := hc, effects := [], stop := false }

/-- An event received by the `select` of `run`: a stanza from the listener, a
query from the orchestration server (with the random id drawn if a stanza is
built for it), or a keepalive tick. -/
inductive Event where
  | messageFromHC (msg : xmppMessage)
  | fromPris (query : Query) (rid : String)
  | keepAlive

/-- One pass through the `select` of `run` for a received event. -/
def run_select (matchString : String → String → Bool)
    (view : String → Except String apiUser) (hc : hipchatClient) :
    Event → Except String StepResult
  | Event.messageFromHC msg => run_messageFromHC matchString view hc msg
  | Event.fromPris query rid => run_fromPris hc rid query
  | Event.keepAlive =>
    Except.ok { hc := hc, effects := [Effect.xmppKeepAlive], stop := false }

/-- How the main loop of `run` stands after a list of events: left by
`break mainLoop`, ended by a panic, or waiting for the next event. -/
inductive LoopEnd where
  | stopped
  | panicked (p : String)
  | waiting
deriving DecidableEq, Repr

/-- The main loop of `run` on the events in their order of arrival: the final
client, everything written, the number of events handled, and how the loop
stands. -/
structure LoopResult where
  hc : hipchatClient
  effects : List Effect
  handled : Nat
  ending : LoopEnd

/-- The main loop of `run`. -/
def run_loop (matchString : String → String → Bool)
    (view : String → Except String apiUser) :
    hipchatClient → List Event → LoopResult
  | hc, [] => { hc := hc, effects := [], handled := 0, ending := LoopEnd.waiting }
  | hc, ev :: rest =>
    match run_select matchString view hc ev with
    | Except.error p =>
      { hc := hc, effects := [], handled := 1, ending := LoopEnd.panicked p }
    | Except.ok r =>
      if r.stop then
        { hc := r.hc, effects := r.effects, handled := 1, ending := LoopEnd.stopped }
      else
        let tail := run_loop matchString view r.hc rest
        { hc := tail.hc, effects := r.effects ++ tail.effects,
          handled := tail.handled + 1, ending := tail.ending }

/-! ## Bring-up in `establishConnection` -/

/-- Lines 487-492 of `establishConnection`: the mention handle of the bot is
taken from its own profile `self`, which is then recorded under the session
identity. -/
def establishConnection_self (c : hipchatClient) (self : hipchatUser) : hipchatClient :=
  let c := { c with mention := self.Mention }
  let c := { c with aMention := "@" ++ self.Mention }
  let self := { self with Jid := c.jid }
  updateUserInfo c self

/-- One iteration of the loop over the discovered rooms in
`establishConnection` (lines 498-502). -/
def establishConnection_room (st : hipchatClient × List String) (room : Room) :
    hipchatClient × List String :=
  let c := st.1
  let c := { c with roomsByName := c.roomsByName.set room.Name room.Id }
  let c := { c with roomsById := c.roomsById.set room.Id room.Name }
  (c, st.2 ++ [room.Id])

/-- The loop over the discovered rooms in `establishConnection`: the client
and the `autojoin` slice it leaves. -/
def establishConnection_rooms (c : hipchatClient) (rooms : List Room) :
    hipchatClient × List String :=
  rooms.foldl establishConnection_room (c, [])

/-! ## The listener: `establishConnection` and `listen` -/

/-- The constant `hipchatHost`. -/
def hipchatHost : String := "chat.hipchat.com"

/-- The value returned by `c.xmpp.Auth`, with the fields that the method for
session negotiation reads. -/
structure authInfo where
  Jid : String
  ApiHost : String
  ChatHost : String
  MucHost : String
  WebHost : String
  Token : String
deriving DecidableEq, Repr, Inhabited

/-- Modelled from the spec: the methods of `xmppConn` that the listener calls
(`StreamStart`, `StartTLS`, `UseTLS`, `Auth`, `VCardRequest`, `Discover`,
`Join`, `Available`, `Disconnect`, `DecodeElement`, `Skip`) and the function
`xmppConnect` are not under `src/`.  A call is recorded in program order and
returns normally; what it returns is given by the script of the service.  In
particular `Disconnect` closes the byte stream and is safe to call at any
time (section 4.1).  `sleep` is `time.Sleep` with its seconds, `deliver` the
send `msgChan <- message`. -/
inductive ListenEffect where
  | connect (host : String)
  | streamStart (id host : String)
  | startTLS
  | useTLS (host : String)
  | auth (username password resource : String)
  | vcardRequest (jid target : String)
  | discover (jid mucHost : String)
  | join (jid nick : String) (rooms : List String)
  | available (jid : String)
  | disconnect
  | sleep (seconds : Nat)
  | deliver (message : xmppMessage)
  | skip
deriving DecidableEq, Repr

/-- A start element that `RecvNext` returns during session negotiation: the
stream element, with whether its features require TLS and with what `Auth`
returns if it is called; the `proceed` element; any other element. -/
inductive InitElement where
  | stream (startTLS : Bool) (auth : authInfo × Option String)
  | proceed
  | other
deriving DecidableEq, Repr

/-- The outcome of a call on the connection: the client, the calls made, and
the returned error (`none` is `nil`). -/
structure ConnResult where
  hc : hipchatClient
  effects : List ListenEffect
  err : Option String

/-- The loop of the method for session negotiation (lines 209-246), on the
elements that `RecvNext` returns; the end of the elements is the read error of
a closed stream.  The index `[0]` of line 227 never panics. -/
def initializeStream_loop (c : hipchatClient) : List InitElement → ConnResult
  | [] => { hc := c, effects := [], err := some "EOF" }
  | InitElement.stream true _ :: rest =>
    let r := initializeStream_loop c rest
    { r with effects := ListenEffect.startTLS :: r.effects }
  | InitElement.stream false (_, some err) :: _ =>
    { hc := c, effects := [ListenEffect.auth c.username c.password c.resource],
      err := some err }
  | InitElement.stream false (info, none) :: _ =>
    let c := { c with jid := info.Jid }
    let c := { c with accountId := (stringsSplit c.jid '_').headD "" }
    let c := { c with apiHost := info.ApiHost, chatHost := info.ChatHost,
                      mucHost := info.MucHost, webHost := info.WebHost,
                      token := info.Token }
    { hc := c, effects := [ListenEffect.auth c.username c.password c.resource],
      err := none }
  | InitElement.proceed :: rest =>
    let r := initializeStream_loop c rest
    { r with effects :=
        ListenEffect.useTLS c.host :: ListenEffect.streamStart c.id c.host :: r.effects }
  | InitElement.other :: rest => initializeStream_loop c rest

/-- The method for session negotiation of `hipchatClient` (lines 207-248):
the stream is opened, then the loop runs. -/
def initializeStream (c : hipchatClient) (elements : List InitElement) : ConnResult :=
  let r := initializeStream_loop c elements
  { r with effects := ListenEffect.streamStart c.id c.host :: r.effects }

/-- What the chat service does during one call of `establishConnection`: the
error of `xmppConnect` if the dial fails, the elements read during session
negotiation, what `VCardDecode(nil)` returns for the bot's own profile, and the
rooms that `Discover` returns. -/
structure Attempt where
  connect : Option String
  elements : List InitElement
  self : Except String hipchatUser
  rooms : List Room

/-- The method `establishConnection` (lines 459-508). -/
def establishConnection (c : hipchatClient) (a : Attempt) : ConnResult :=
  match a.connect with
  | some err => { hc := c, effects := [ListenEffect.connect hipchatHost], err := some err }
  | none =>
    let r := initializeStream c a.elements
    match r.err with
    | some err =>
      { hc := r.hc, effects := ListenEffect.connect hipchatHost :: r.effects,
        err := some err }
    | none =>
      let c := r.hc
      match a.self with
      | Except.error err =>
        { hc := c,
          effects := ListenEffect.connect hipchatHost :: r.effects ++
            [ListenEffect.vcardRequest r.hc.jid ""],
          err := some err }
      | Except.ok self =>
        let c := establishConnection_self c self
        let joined := establishConnection_rooms c a.rooms
        let c1 := joined.1
        { hc := c1,
          effects := ListenEffect.connect hipchatHost :: r.effects ++
            [ListenEffect.vcardRequest r.hc.jid "",
             ListenEffect.discover c.jid c.mucHost,
             ListenEffect.join c1.jid c1.nick joined.2,
             ListenEffect.available c1.jid],
          err := none }

/-- How far the listener has come on a script: still in a loop of connection
attempts, none of which has succeeded, or in the read loop. -/
inductive ListenPhase where
  | establishing
  | reading
deriving DecidableEq, Repr

/-- The run of the listener on a script: the client, the calls made, the number
of calls of `establishConnection`, and where the listener stands. -/
structure ListenResult where
  hc : hipchatClient
  effects : List ListenEffect
  calls : Nat
  phase : ListenPhase

/-- The establishment loop of `listen` (lines 512-517, and again lines
526-532): `establishConnection` is called until it returns `nil`; each call
that returns an error is followed by `Disconnect` and a sleep of 10 seconds.
On a script of attempts that ends before one succeeds the loop is still
retrying. -/
def listen_establish (c : hipchatClient) : List Attempt → ListenResult
  | [] => { hc := c, effects := [], calls := 0, phase := ListenPhase.establishing }
  | a :: rest =>
    let r := establishConnection c a
    match r.err with
    | none => { hc := r.hc, effects := r.effects, calls := 1, phase := ListenPhase.reading }
    | some _ =>
      let tail := listen_establish r.hc rest
      { hc := tail.hc,
        effects := r.effects ++ [ListenEffect.disconnect, ListenEffect.sleep 10] ++
          tail.effects,
        calls := tail.calls + 1, phase := tail.phase }

/-- What `RecvNext` returns in the read loop of `listen`: a `message` element
with the stanza decoded from it, an `iq` element with what `VCardDecode`
returns for it, any other element, or an error, with the attempts made by the
establishment loop that follows it. -/
inductive Received where
  | message (m : xmppMessage)
  | iq (vcard : Except String hipchatUser)
  | other
  | failure (retries : List Attempt)

/-- The read loop of `listen` (lines 519-562), on what `RecvNext` returns; at
the end of the script the listener waits in `RecvNext`. -/
def listen_read (c : hipchatClient) : List Received → ListenResult
  | [] => { hc := c, effects := [], calls := 0, phase := ListenPhase.reading }
  | Received.message m :: rest =>
    let tail := listen_read c rest
    { tail with effects := ListenEffect.deliver m :: tail.effects }
  | Received.iq (Except.ok userInfo) :: rest => listen_read (updateUserInfo c userInfo) rest
  | Received.iq (Except.error _) :: rest => listen_read c rest
  | Received.other :: rest =>
    let tail := listen_read c rest
    { tail with effects := ListenEffect.skip :: tail.effects }
  | Received.failure retries :: rest =>
    let r := listen_establish c retries
    match r.phase with
    | ListenPhase.establishing =>
      { r with effects := ListenEffect.disconnect :: r.effects }
    | ListenPhase.reading =>
      let tail := listen_read r.hc rest
      { hc := tail.hc, effects := ListenEffect.disconnect :: r.effects ++ tail.effects,
        calls := r.calls + tail.calls, phase := tail.phase }

/-- The method `listen`: the establishment loop on `attempts`, then, once a
connection is established, the read loop on `received`. -/
def listen (c : hipchatClient) (attempts : List Attempt) (received : List Received) :
    ListenResult :=
  let r := listen_establish c attempts
  match r.phase with
  | ListenPhase.establishing => r
  | ListenPhase.reading =>
    let tail := listen_read r.hc received
    { hc := tail.hc, effects := r.effects ++ tail.effects, calls := r.calls + tail.calls,
      phase := tail.phase }

/-- The calls that belong to neither a retry cycle nor the end of bring-up:
every call but `Disconnect`, the sleep, `Join` and `Available`. -/
def ListenEffect.quiet : ListenEffect → Bool
  | ListenEffect.disconnect => false
  | ListenEffect.sleep _ => false
  | ListenEffect.join _ _ _ => false
  | ListenEffect.available _ => false
  | _ => true

/-- Recognises the call of `Available`, the last call of a bring-up. -/
def ListenEffect.isAvailable : ListenEffect → Bool
  | ListenEffect.available _ => true
  | _ => false

/-- Recognises a sleep of any length. -/
def ListenEffect.isSleep : ListenEffect → Bool
  | ListenEffect.sleep _ => true
  | _ => false

/-- The number of retry cycles in a trace: the places where `Disconnect` is
directly followed by a sleep of 10 seconds. -/
def spec_retryCycles : List ListenEffect → Nat
  | [] => 0
  | e :: rest =>
    (if e = ListenEffect.disconnect ∧ rest.head? = some (ListenEffect.sleep 10) then 1
     else 0) + spec_retryCycles rest

/-- Recognises the call of `xmppConnect`, the first call of every
`establishConnection`. -/
def ListenEffect.isConnect : ListenEffect → Bool
  | ListenEffect.connect _ => true
  | _ => false

/-- The traces of successive calls of `establishConnection` on a list of
attempts, each call made from the client that the call before it left. -/
def spec_callTraces (c : hipchatClient) : List Attempt → List (List ListenEffect)
  | [] => []
  | a :: rest =>
    (establishConnection c a).effects :: spec_callTraces (establishConnection c a).hc rest

/-- The client left by successive calls of `establishConnection` on a list
of attempts. -/
def spec_clientAfter (c : hipchatClient) : List Attempt → hipchatClient
  | [] => c
  | a :: rest => spec_clientAfter (establishConnection c a).hc rest

/-- The trace that the specification asks of the supervisor, from the traces
of the failed attempts, in order, and the trace of the attempt that succeeds:
every failed attempt is followed by a disconnect and a wait of 10 seconds,
and the successful attempt comes last, with nothing after it. -/
def spec_retryTrace : List (List ListenEffect) → List ListenEffect → List ListenEffect
  | [], succeeded => succeeded
  | failed :: rest, succeeded =>
    failed ++ [ListenEffect.disconnect, ListenEffect.sleep 10] ++
      spec_retryTrace rest succeeded

/-! ## The package `xmpp` (`src/xmpp/xmpp.go`) -/

namespace xmpp

/-- A Go byte slice, and a Go string seen as its bytes. -/
abbrev Bytes := List (Fin 256)

/-- The constant `NsHipchat`. -/
def NsHipchat : String := "http://hipchat.com"

/-- The alphabet of `base64.StdEncoding` (RFC 4648, table 1). -/
def encodeStd : List Char :=
  "ABCDEFGHIJKLMNOPQRSTUVWXYZabcdefghijklmnopqrstuvwxyz0123456789+/".data

/-- The character of the alphabet at an index below 64. -/
def encodeChar (i : Nat) : Char := encodeStd.getD i 'A'

/-- Go `base64.StdEncoding.Encode`: three source bytes give four characters;
a rest of one or two bytes gives two or three characters and `=` padding. -/
def base64Encode : Bytes → List Char
  | b0 :: b1 :: b2 :: rest =>
    let val := (b0.val <<< 16) ||| (b1.val <<< 8) ||| b2.val
    encodeChar ((val >>> 18) &&& 0x3F) :: encodeChar ((val >>> 12) &&& 0x3F) ::
      encodeChar ((val >>> 6) &&& 0x3F) :: encodeChar (val &&& 0x3F) :: base64Encode rest
  | [b0, b1] =>
    let val := (b0.val <<< 16) ||| (b1.val <<< 8)
    [encodeChar ((val >>> 18) &&& 0x3F), encodeChar ((val >>> 12) &&& 0x3F),
      encodeChar ((val >>> 6) &&& 0x3F), '=']
  | [b0] =>
    let val := b0.val <<< 16
    [encodeChar ((val >>> 18) &&& 0x3F), encodeChar ((val >>> 12) &&& 0x3F), '=', '=']
  | [] => []

/-- Go `base64.StdEncoding.EncodeToString`. -/
def EncodeToString (src : Bytes) : String := ⟨base64Encode src⟩

/-- The struct `xmppAuth` (without `XMLName`); `Value` is the character data
of the element. -/
structure xmppAuth where
  Ns : String
  Value : String
deriving DecidableEq, Repr, Inhabited

/-- The struct `authResponse` (without `XMLName`). -/
structure authResponse where
  Jid : String
  ApiHost : String
  ChatHost : String
  MucHost : String
  WebHost : String
deriving DecidableEq, Repr, Inhabited

/-- What a call of `Auth` does: the element given to `c.encoder.Encode`, and
the response and error it returns. -/
structure AuthOutcome where
  sent : xmppAuth
  response : authResponse
  err : Option String
deriving DecidableEq, Repr

/-- The method `Conn.Auth`.  `decoded` is what `c.decoder.Decode` yields. -/
def Auth (decoded : authResponse × Option String) (username password resource : Bytes) :
    AuthOutcome :=
  let token : Bytes := [0]
  let token := token ++ username
  let token := token ++ [0]
  let token := token ++ password
  let token := token ++ [0]
  let token := token ++ resource
  let encodedToken := EncodeToString token
  let auth : xmppAuth := { Ns := NsHipchat, Value := encodedToken }
  { sent := auth, response := decoded.1, err := decoded.2 }

/-! ### Base64 in the words of RFC 4648 -/

/-- The eight bits of a byte, most significant first. -/
def spec_byteBits (b : Fin 256) : List Bool :=
  [b.val.testBit 7, b.val.testBit 6, b.val.testBit 5, b.val.testBit 4,
   b.val.testBit 3, b.val.testBit 2, b.val.testBit 1, b.val.testBit 0]

/-- The number written by a list of bits, most significant first. -/
def spec_bitsValue (bits : List Bool) : Nat :=
  bits.foldl (fun n b => 2 * n + b.toNat) 0

/-- A bit string cut into groups of six bits from the left; zero bits are
added on the right of a last group that is not full. -/
def spec_sextets : List Bool → List (List Bool)
  | b0 :: b1 :: b2 :: b3 :: b4 :: b5 :: rest =>
    [b0, b1, b2, b3, b4, b5] :: spec_sextets rest
  | [] => []
  | bits => [(bits ++ List.replicate 6 false).take 6]

/-- The characters of the standard base64 encoding before padding: the
character of the alphabet for each six-bit group of the input bits. -/
def spec_base64Chars (src : Bytes) : List Char :=
  (spec_sextets (src.flatMap spec_byteBits)).map (fun g => encodeChar (spec_bitsValue g))

/-- The standard base64 encoding of RFC 4648, section 4: the characters of
the six-bit groups, then `=` up to a multiple of four characters. -/
def spec_base64 (src : Bytes) : String :=
  ⟨spec_base64Chars src ++
    List.replicate ((4 - (spec_base64Chars src).length % 4) % 4) '='⟩

/-- The bytes of an ASCII string. -/
def asciiBytes (s : String) : Bytes :=
  s.data.map (fun c => Fin.ofNat c.toNat)

end xmpp

/-! ## The mention suffixes of `groupMessage` in the words of the specification -/

/-- The suffix that `groupMessage` appends for one name of the mention-notify
list, in the words of the specification: ` @` and the mention handle when the
name is in the directory, nothing when it is not. -/
def spec_mentionSuffix (c : hipchatClient) (name : String) : String :=
  match c.usersByName name with
  | some user => " @" ++ user.Mention
  | none => ""

/-- The suffixes for the names of a mention-notify list, in list order. -/
def spec_mentionSuffixes (c : hipchatClient) : List String → String
  | [] => ""
  | name :: rest => spec_mentionSuffix c name ++ spec_mentionSuffixes c rest

/-! ## Example data -/

/-- A user record, and the record of the same identity with another email. -/
def bobOldEmail : hipchatUser :=
  { Jid := "1_2@chat.hipchat.com", Name := "Bob", Mention := "bob",
    Email := "bob@old.example" }

/-- The record `bobOldEmail` after a change of email. -/
def bobNewEmail : hipchatUser :=
  { bobOldEmail with Email := "bob@new.example" }

/-- A client after bring-up: mention handle `lisa`, no room and no user known. -/
def lisaClient : hipchatClient :=
  { newClient "u" "p" "Lisa Bot" with
    jid := "1_9@chat.hipchat.com", mention := "lisa", aMention := "@lisa" }

/-- A profile service that knows the user id `2` only. -/
def bobView : String → Except String apiUser := fun id =>
  if id = "2" then Except.ok ⟨"1_2@chat.hipchat.com", "bob", "bobby", "bob@example.com"⟩
  else Except.error "not found"

/-- The record `populateUser` stores for the sender of `scenarioA`. -/
def bobUser : hipchatUser :=
  { Jid := "1_2@chat.hipchat.com", Name := "bob", Mention := "bobby",
    Email := "bob@example.com" }

/-- The client `lisaClient` after the profile lookup of the sender of
`scenarioA`. -/
def lisaClientWithBob : hipchatClient :=
  { lisaClient with
    usersByMention := lisaClient.usersByMention.set "bobby" bobUser,
    usersByName := lisaClient.usersByName.set "bob" bobUser,
    usersByJid := lisaClient.usersByJid.set "1_2@chat.hipchat.com" bobUser,
    usersByEmail := lisaClient.usersByEmail.set "bob@example.com" bobUser }

/-- The stanza of scenario A: `bob` addresses the bot in `room1`. -/
def scenarioA : xmppMessage :=
  { Type_ := "groupchat", From := "room1@conf/bob", FromJid := "1_2@chat.hipchat.com",
    To := "", Id := "", Body := "@lisa status?", RoomName := "", RoomId := "" }

/-- The message block the router emits for `scenarioA`. -/
def scenarioABlock : MessageBlock :=
  { Message := " status?", From := "bob", Room := "", Mentioned := true,
    Stripped := " status?",
    User := some { Id := "1_2@chat.hipchat.com", Name := "bob", Mention := "bobby",
                   Email := "bob@example.com" },
    MentionNotify := [] }

/-- A stanza that names the bot in the middle of its body, from a sender
without identity attribute. -/
def pingStanza : xmppMessage :=
  { Type_ := "groupchat", From := "room1@conf/ann", FromJid := "", To := "", Id := "",
    Body := "hey @lisa ping", RoomName := "", RoomId := "" }

/-- The message block the router emits for `pingStanza`. -/
def pingBlock : MessageBlock :=
  { Message := "hey  ping", From := "ann", Room := "", Mentioned := true,
    Stripped := "hey  ping", User := none, MentionNotify := [] }

/-- A room invite: a room name, no body, no sender identity. -/
def inviteStanza : xmppMessage :=
  { Type_ := "", From := "lobby@conf.hipchat.com", FromJid := "", To := "", Id := "",
    Body := "", RoomName := "Lobby", RoomId := "" }

/-- The outcome of handling `inviteStanza` with `lisaClient`. -/
def inviteResult : StepResult :=
  { hc := { lisaClient with
            roomsByName := lisaClient.roomsByName.set "Lobby" "lobby@conf.hipchat.com",
            roomsById := lisaClient.roomsById.set "lobby@conf.hipchat.com" "Lobby" },
    effects := [Effect.xmppJoin "1_9@chat.hipchat.com" "Lisa Bot" ["lobby@conf.hipchat.com"]],
    stop := false }

/-- A room invite whose sender identity has no `_` before the `@`. -/
def inviteStanzaBadJid : xmppMessage :=
  { inviteStanza with FromJid := "abc@chat.hipchat.com" }

/-- A `room_request` command with the given lookup kind and key. -/
def roomRequest (kind data : String) : Query :=
  { Type_ := "command", Source := "responder", To := "",
    Command := some { Id := "7", Action := "room_request", Type_ := kind, Data := data,
                      Map := GoMap.empty, Error := "" },
    Message := none }

/-- The command block of the reply to a `room_request` whose lookup kind is
neither `name` nor `id`. -/
def unknownKindReply : CommandBlock :=
  { Id := "7", Action := "info", Type_ := "room", Data := "", Map := GoMap.empty,
    Error := "" }

/-- A message block for the room `Room One` that notifies `bob`, an unknown
name, and `bob` again. -/
def notifyBlock : MessageBlock :=
  { Message := "deploy done", From := "", Room := "Room One", Mentioned := false,
    Stripped := "", User := none, MentionNotify := ["bob", "nobody", "bob"] }

/-- An attempt whose dial fails. -/
def dialFailure : Attempt :=
  { connect := some "dial tcp: i/o timeout", elements := [], self := Except.error "",
    rooms := [] }

/-- An attempt that upgrades to TLS and is then refused by `Auth`. -/
def authRefused : Attempt :=
  { connect := none,
    elements := [InitElement.stream true (default, none), InitElement.proceed,
                 InitElement.stream false (default, some "not authorized")],
    self := Except.error "", rooms := [] }

/-- An attempt that upgrades to TLS, authenticates, reads the bot's profile
and discovers the room `Ops`. -/
def goodAttempt : Attempt :=
  { connect := none,
    elements := [InitElement.stream true (default, none), InitElement.proceed,
                 InitElement.stream false
                   (⟨"1_9@chat.hipchat.com", "api", "chat", "conf.hipchat.com", "web", "tok"⟩,
                    none)],
    self := Except.ok ⟨"", "Lisa Bot", "lisa", "lisa@example.com"⟩,
    rooms := [⟨"Ops", "ops@conf.hipchat.com"⟩] }

/-- A `disengage` command from the orchestration server. -/
def disengageQuery : Query :=
  { Type_ := "command", Source := "server", To := "",
    Command := some { Id := "1", Action := "disengage", Type_ := "", Data := "",
                      Map := GoMap.empty, Error := "" },
    Message := none }

/-- The stanza of scenario A from a sender identity without `_`. -/
def scenarioANoUnderscore : xmppMessage :=
  { scenarioA with FromJid := "bob@chat.hipchat.com" }

/-- The attempts of the retry example: a dial failure and a refused
authentication, then a successful attempt, then one that is never made. -/
def retryScript : List Attempt :=
  [dialFailure, authRefused] ++ goodAttempt :: [dialFailure]

/-! ## Theorems -/

/-! ### The user directory -/

@[simp] theorem GoMap.set_same {V : Type} (m : GoMap V) (k : String) (v : V) :
    m.set k v k = some v := by
  simp [GoMap.set]

@[simp] theorem GoMap.set_other {V : Type} (m : GoMap V) (k k' : String) (v : V)
    (h : k' ≠ k) : m.set k v k' = m k' := by
  simp [GoMap.set, h]

/-- C1: after `updateUserInfo r` the lookups by name, mention, identity and
email at the keys of `r` are all found and all give `r`. -/
theorem updateUserInfo_four_lookups (c : hipchatClient) (r : hipchatUser) :
    (updateUserInfo c r).usersByName r.Name = some r ∧
    (updateUserInfo c r).usersByMention r.Mention = some r ∧
    (updateUserInfo c r).usersByJid r.Jid = some r ∧
    (updateUserInfo c r).usersByEmail r.Email = some r := by
  simp [updateUserInfo]

/-- C2, as stated, fails: a second update with the same identity and another
email leaves the old email key in place, still bound to the first record. -/
theorem updateUserInfo_old_email_counterexample :
    bobNewEmail.Jid = bobOldEmail.Jid ∧ bobNewEmail.Email ≠ bobOldEmail.Email ∧
    (updateUserInfo (updateUserInfo (newClient "u" "p" "Priscilla") bobOldEmail)
      bobNewEmail).usersByEmail bobOldEmail.Email = some bobOldEmail ∧
    (updateUserInfo (updateUserInfo (newClient "u" "p" "Priscilla") bobOldEmail)
      bobNewEmail).usersByEmail bobOldEmail.Email ≠ none := by
  decide

/-- C2, amended: after `updateUserInfo r1` then `updateUserInfo r2`, with the
same identity and a different email, the new email gives `r2`, the identity
gives `r2`, and the old email is still found and gives the first record `r1`. -/
theorem updateUserInfo_email_change (c : hipchatClient) (r1 r2 : hipchatUser)
    (hjid : r2.Jid = r1.Jid) (hemail : r2.Email ≠ r1.Email) :
    (updateUserInfo (updateUserInfo c r1) r2).usersByEmail r2.Email = some r2 ∧
    (updateUserInfo (updateUserInfo c r1) r2).usersByJid r1.Jid = some r2 ∧
    (updateUserInfo (updateUserInfo c r1) r2).usersByEmail r1.Email = some r1 := by
  refine ⟨by simp [updateUserInfo], by simp [updateUserInfo, hjid.symm], ?_⟩
  simp [updateUserInfo, GoMap.set, Ne.symm hemail]

/-- C2, amended, at two records of one user whose email changed. -/
theorem updateUserInfo_email_change_witness :
    (updateUserInfo (updateUserInfo (newClient "u" "p" "Priscilla") bobOldEmail)
      bobNewEmail).usersByEmail bobNewEmail.Email = some bobNewEmail ∧
    (updateUserInfo (updateUserInfo (newClient "u" "p" "Priscilla") bobOldEmail)
      bobNewEmail).usersByJid bobOldEmail.Jid = some bobNewEmail ∧
    (updateUserInfo (updateUserInfo (newClient "u" "p" "Priscilla") bobOldEmail)
      bobNewEmail).usersByEmail bobOldEmail.Email = some bobOldEmail :=
  updateUserInfo_email_change (newClient "u" "p" "Priscilla") bobOldEmail bobNewEmail
    rfl (by decide)

/-! ### Splitting and replacing -/

theorem splitChars_ne_nil (sep : Char) (l : List Char) : splitChars sep l ≠ [] := by
  cases l with
  | nil => simp [splitChars]
  | cons c cs =>
    simp only [splitChars]
    split
    · simp
    · split <;> simp

/-- The index `[0]` on the result of `strings.Split` never panics. -/
theorem goIndex_stringsSplit_zero (s : String) (sep : Char) :
    ∃ a, goIndex (stringsSplit s sep) 0 = Except.ok a := by
  unfold stringsSplit goIndex
  cases h : splitChars sep s.data with
  | nil => exact absurd h (splitChars_ne_nil sep s.data)
  | cons a t => exact ⟨String.mk a, by simp⟩

/-- The first piece of a split is the text before the first separator. -/
theorem splitChars_head (sep : Char) (l : List Char) :
    (splitChars sep l).head? = some (l.takeWhile (fun c => c ≠ sep)) := by
  induction l with
  | nil => simp [splitChars]
  | cons c cs ih =>
    simp only [splitChars]
    by_cases h : c = sep
    · simp [h]
    · rw [if_neg h]
      cases hs : splitChars sep cs with
      | nil => exact absurd hs (splitChars_ne_nil sep cs)
      | cons a t =>
        rw [hs] at ih
        simp at ih
        simp [h, ih]

/-- A split has a second piece exactly when the separator occurs. -/
theorem splitChars_second (sep : Char) (l : List Char) :
    (∃ a, (splitChars sep l)[1]? = some a) ↔ sep ∈ l := by
  induction l with
  | nil => simp [splitChars]
  | cons c cs ih =>
    simp only [splitChars]
    by_cases h : c = sep
    · rw [if_pos h]
      cases hs : splitChars sep cs with
      | nil => exact absurd hs (splitChars_ne_nil sep cs)
      | cons a t => simp [h]
    · rw [if_neg h]
      cases hs : splitChars sep cs with
      | nil => exact absurd hs (splitChars_ne_nil sep cs)
      | cons a t =>
        rw [hs] at ih
        have hne : ¬ (sep = c) := fun e => h e.symm
        simpa [hne] using ih

/-- Characters being dropped from a matched occurrence are passed over. -/
theorem replaceFrom_skip (old new : List Char) (xs rest : List Char) :
    replaceFrom old new xs.length (xs ++ rest) = replaceFrom old new 0 rest := by
  induction xs with
  | nil => simp
  | cons x xs ih => simpa [replaceFrom] using ih

/-- A text without the first character of `old` is left as it is. -/
theorem replaceFrom_no_head (a : Char) (old new rest : List Char) (h : a ∉ rest) :
    replaceFrom (a :: old) new 0 rest = rest := by
  induction rest with
  | nil => simp [replaceFrom]
  | cons c cs ih =>
    have hc : a ≠ c := fun e => h (by simp [e])
    have hcs : a ∉ cs := fun e => h (by simp [e])
    simp [replaceFrom, List.isPrefixOf, hc, ih hcs]

/-- Removing a handle from a body that starts with it and has no other `@`. -/
theorem stringsReplaceAll_leading (H rest : String) (hrest : '@' ∉ rest.data) :
    stringsReplaceAll ("@" ++ H ++ rest) ("@" ++ H) "" = rest := by
  have hne : ("@" ++ H) ≠ "" := by
    intro e
    have := congrArg String.data e
    simp at this
  have hd : ("@" ++ H).data ≠ [] := by simp
  unfold stringsReplaceAll
  rw [if_neg hne, if_neg hd]
  apply String.ext
  show replaceFrom ("@" ++ H).data ("" : String).data 0 ("@" ++ H ++ rest).data = rest.data
  have h1 : ("@" ++ H).data = '@' :: H.data := by simp
  have h2 : ("@" ++ H ++ rest).data = '@' :: (H.data ++ rest.data) := by simp
  rw [h1, h2]
  have hp : ('@' :: H.data).isPrefixOf ('@' :: (H.data ++ rest.data)) = true := by
    simp [List.isPrefixOf]
  simp only [replaceFrom, hp, if_true, List.length_cons, Nat.add_sub_cancel]
  rw [replaceFrom_skip, replaceFrom_no_head '@' H.data _ rest.data hrest]
  simp

/-- The substring matcher meets the assumption made on `regexp.MatchString`. -/
theorem literalMatchString_matchesLiterally : MatchesLiterally literalMatchString := by
  intro h s _
  simp [literalMatchString]

/-! ### The profile lookup of the sender -/

/-- The user id is cut out of an identity, without a panic, exactly when a
`_` stands before the first `@` of the identity. -/
theorem populateUser_id_ok_iff (jid : String) :
    (∃ id, populateUser_id jid = Except.ok id) ↔
      '_' ∈ jid.data.takeWhile (fun c => c ≠ '@') := by
  have hhead := splitChars_head '@' jid.data
  unfold populateUser_id goIndex stringsSplit
  cases hs : splitChars '@' jid.data with
  | nil => exact absurd hs (splitChars_ne_nil '@' jid.data)
  | cons a t =>
    rw [hs] at hhead
    simp only [List.head?_cons, Option.some.injEq] at hhead
    subst hhead
    simp only [List.map_cons, List.getElem?_cons_zero]
    rw [← splitChars_second '_' (List.takeWhile (fun c => c ≠ '@') jid.data)]
    rw [List.getElem?_map]
    cases h2 : (splitChars '_' (List.takeWhile (fun c => c ≠ '@') jid.data))[1]? with
    | none => simp
    | some b => simp

/-- The profile lookup of the sender writes the four user maps only. -/
theorem run_senderLookup_frame (view : String → Except String apiUser)
    (hc hc1 : hipchatClient) (msg : xmppMessage)
    (h : run_senderLookup view hc msg = Except.ok hc1) :
    hc1.nick = hc.nick ∧ hc1.jid = hc.jid ∧ hc1.mention = hc.mention ∧
    hc1.aMention = hc.aMention ∧ hc1.roomsByName = hc.roomsByName ∧
    hc1.roomsById = hc.roomsById := by
  unfold run_senderLookup at h
  split at h
  · split at h
    · cases h; simp
    · unfold populateUser at h
      split at h
      · simp at h
      · rename_i hp
        split at hp
        · simp at hp
        · split at hp
          · cases hp; cases h; simp
          · cases hp; cases h; simp
  · cases h; simp

/-- The profile lookup of the sender returns, without a panic, exactly when
the stanza has no sender identity, or the identity is known, or a `_` stands
before its first `@`. -/
theorem run_senderLookup_ok_iff (view : String → Except String apiUser)
    (hc : hipchatClient) (msg : xmppMessage) :
    (∃ hc1, run_senderLookup view hc msg = Except.ok hc1) ↔
      (msg.FromJid = "" ∨ hc.usersByJid msg.FromJid ≠ none ∨
        '_' ∈ msg.FromJid.data.takeWhile (fun c => c ≠ '@')) := by
  rw [← populateUser_id_ok_iff]
  unfold run_senderLookup
  by_cases hj : msg.FromJid = ""
  · simp [hj]
  · rw [if_pos hj]
    cases hu : hc.usersByJid msg.FromJid with
    | some u => simp [hj]
    | none =>
      simp only [hj, ne_eq, not_true_eq_false, false_or]
      unfold populateUser
      cases hid : populateUser_id msg.FromJid with
      | error p => simp
      | ok id =>
        cases hv : view id with
        | error e => simp [hv]
        | ok user => simp [hv]

/-! ### Chat stanzas -/

/-- The case for a chat stanza, once the profile lookup of the sender has
returned the client `hc1`: the three branches of lines 315-353. -/
theorem run_messageFromHC_of_lookup (matchString : String → String → Bool)
    (view : String → Except String apiUser) (hc hc1 : hipchatClient) (msg : xmppMessage)
    (hlookup : run_senderLookup view hc msg = Except.ok hc1) :
    run_messageFromHC matchString view hc msg =
      if msg.Body ≠ "" ∧ run_fromNick (stringsSplit msg.From '/') ≠ hc1.nick then
        Except.ok
          { hc := hc1,
            effects := [Effect.toPris (run_clientQuery matchString hc1 msg
              ((stringsSplit msg.From '/').headD "")
              (run_fromNick (stringsSplit msg.From '/')))],
            stop := false }
      else if msg.RoomName ≠ "" then
        Except.ok
          { hc := { hc1 with
                    roomsByName := hc1.roomsByName.set msg.RoomName msg.From,
                    roomsById := hc1.roomsById.set msg.From msg.RoomName },
            effects := [Effect.xmppJoin hc1.jid hc1.nick [msg.From]],
            stop := false }
      else Except.ok { hc := hc1, effects := [], stop := false } := by
  obtain ⟨a, ha⟩ := goIndex_stringsSplit_zero msg.From '/'
  have hhead : (stringsSplit msg.From '/').headD "" = a := by
    unfold goIndex at ha
    cases hl : stringsSplit msg.From '/' with
    | nil => rw [hl] at ha; simp at ha
    | cons b t => rw [hl] at ha; simp at ha; simp [ha]
  simp only [run_messageFromHC, ha, hlookup, hhead]

/-- A handled chat stanza is one whose sender lookup returned. -/
theorem run_messageFromHC_ok_lookup (matchString : String → String → Bool)
    (view : String → Except String apiUser) (hc : hipchatClient) (msg : xmppMessage)
    (r : StepResult) (hrun : run_messageFromHC matchString view hc msg = Except.ok r) :
    ∃ hc1, run_senderLookup view hc msg = Except.ok hc1 := by
  cases hl : run_senderLookup view hc msg with
  | ok hc1 => exact ⟨hc1, rfl⟩
  | error p =>
    obtain ⟨a, ha⟩ := goIndex_stringsSplit_zero msg.From '/'
    simp [run_messageFromHC, ha, hl] at hrun

/-- A chat stanza is handled without a panic exactly when it has no sender
identity, or the identity is known, or a `_` stands before its first `@`. -/
theorem run_messageFromHC_ok_iff (matchString : String → String → Bool)
    (view : String → Except String apiUser) (hc : hipchatClient) (msg : xmppMessage) :
    (∃ r, run_messageFromHC matchString view hc msg = Except.ok r) ↔
      (msg.FromJid = "" ∨ hc.usersByJid msg.FromJid ≠ none ∨
        '_' ∈ msg.FromJid.data.takeWhile (fun c => c ≠ '@')) := by
  rw [← run_senderLookup_ok_iff view hc msg]
  constructor
  · rintro ⟨r, hr⟩
    exact run_messageFromHC_ok_lookup matchString view hc msg r hr
  · rintro ⟨hc1, h1⟩
    rw [run_messageFromHC_of_lookup matchString view hc hc1 msg h1]
    split
    · exact ⟨_, rfl⟩
    · split
      · exact ⟨_, rfl⟩
      · exact ⟨_, rfl⟩

/-- When the profile lookup of the sender returns, the case for a stanza
without a body (or from the bot itself) that carries a room name records the
room in both indexes, leaves every other room entry alone, and asks to join
that one room. -/
theorem run_messageFromHC_invite (matchString : String → String → Bool)
    (view : String → Except String apiUser) (hc hc1 : hipchatClient) (msg : xmppMessage)
    (hlookup : run_senderLookup view hc msg = Except.ok hc1)
    (hbranch : msg.Body = "" ∨ run_fromNick (stringsSplit msg.From '/') = hc.nick)
    (hname : msg.RoomName ≠ "") :
    ∃ r, run_messageFromHC matchString view hc msg = Except.ok r ∧
      r.effects = [Effect.xmppJoin hc.jid hc.nick [msg.From]] ∧ r.stop = false ∧
      r.hc.roomsByName = hc.roomsByName.set msg.RoomName msg.From ∧
      r.hc.roomsById = hc.roomsById.set msg.From msg.RoomName := by
  obtain ⟨hn, hj, -, -, hrn, hri⟩ := run_senderLookup_frame view hc hc1 msg hlookup
  have hcond : ¬ (msg.Body ≠ "" ∧ run_fromNick (stringsSplit msg.From '/') ≠ hc1.nick) := by
    rw [hn]
    rcases hbranch with h | h
    · simp [h]
    · simp [h]
  rw [run_messageFromHC_of_lookup matchString view hc hc1 msg hlookup, if_neg hcond,
    if_pos hname]
  exact ⟨_, rfl, by simp [hn, hj], rfl, by simp [hrn], by simp [hri]⟩

/-- C3: right after a room is recorded, by the room-invite branch of `run`
(a stanza with a room name that has no body or comes from the bot itself) or by
one iteration of the discovery loop of `establishConnection`, the room name
maps to the room address in `roomsByName` and the room address maps to the
room name in `roomsById`. -/
theorem room_recorded_both_ways (matchString : String → String → Bool)
    (view : String → Except String apiUser) (hc : hipchatClient) (msg : xmppMessage)
    (r : StepResult)
    (hrun : run_messageFromHC matchString view hc msg = Except.ok r)
    (hbranch : msg.Body = "" ∨ run_fromNick (stringsSplit msg.From '/') = hc.nick)
    (hname : msg.RoomName ≠ "")
    (st : hipchatClient × List String) (room : Room) :
    (r.hc.roomsByName msg.RoomName = some msg.From ∧
      r.hc.roomsById msg.From = some msg.RoomName) ∧
    ((establishConnection_room st room).1.roomsByName room.Name = some room.Id ∧
      (establishConnection_room st room).1.roomsById room.Id = some room.Name) := by
  obtain ⟨hc1, hlookup⟩ := run_messageFromHC_ok_lookup matchString view hc msg r hrun
  obtain ⟨r1, hr1, -, -, hbn, hbi⟩ :=
    run_messageFromHC_invite matchString view hc hc1 msg hlookup hbranch hname
  have hr : r = r1 := by
    rw [hrun] at hr1
    exact Except.ok.inj hr1
  subst hr
  refine ⟨⟨?_, ?_⟩, ?_, ?_⟩
  · rw [hbn]; simp
  · rw [hbi]; simp
  · simp [establishConnection_room]
  · simp [establishConnection_room]

/-- C3 at the invite to the room `Lobby` and at the discovered room `Ops`. -/
theorem room_recorded_both_ways_witness :
    (inviteResult.hc.roomsByName "Lobby" = some "lobby@conf.hipchat.com" ∧
      inviteResult.hc.roomsById "lobby@conf.hipchat.com" = some "Lobby") ∧
    ((establishConnection_room (lisaClient, []) ⟨"Ops", "ops@conf.hipchat.com"⟩).1.roomsByName
        "Ops" = some "ops@conf.hipchat.com" ∧
      (establishConnection_room (lisaClient, []) ⟨"Ops", "ops@conf.hipchat.com"⟩).1.roomsById
        "ops@conf.hipchat.com" = some "Ops") :=
  room_recorded_both_ways literalMatchString bobView lisaClient inviteStanza inviteResult
    rfl (Or.inl rfl) (by decide) (lisaClient, []) ⟨"Ops", "ops@conf.hipchat.com"⟩

/-- After bring-up `aMention` is `@` followed by the mention handle, which is
what the mention theorems below assume of the client. -/
theorem establishConnection_self_aMention (c : hipchatClient) (self : hipchatUser) :
    (establishConnection_self c self).mention = self.Mention ∧
    (establishConnection_self c self).aMention = "@" ++ self.Mention := by
  simp [establishConnection_self, updateUserInfo]

/-- C4, as stated, fails: for the body `@lisa status?` and the mention handle
`lisa` the router sets the mention flag, and the stripped body it emits is
` status?`, with the space that followed the handle, not `status?`. -/
theorem scenarioA_stripped_counterexample :
    run_messageFromHC literalMatchString bobView lisaClient scenarioA =
      Except.ok
        { hc := lisaClientWithBob,
          effects := [Effect.toPris
            { Type_ := "message", Source := "", To := "server", Command := none,
              Message := some scenarioABlock }],
          stop := false } ∧
    scenarioABlock.Mentioned = true ∧
    scenarioABlock.Stripped = " status?" ∧
    scenarioABlock.Stripped ≠ "status?" :=
  ⟨rfl, rfl, rfl, by decide⟩

/-- C4, amended: for a mention handle `H` of letters and digits, a body made
of `@H` followed by a text without `@` (such as ` hello` or ` status?`), and a
sender whose nickname is not the bot's own and whose profile lookup returns,
the router emits one message query, with the mention flag set and with the
stripped body equal to the text that followed the handle, its leading space
kept. -/
theorem mention_detected_stripped_rest (matchString : String → String → Bool)
    (hmatch : MatchesLiterally matchString)
    (view : String → Except String apiUser) (hc hc1 : hipchatClient) (msg : xmppMessage)
    (H rest : String)
    (halnum : ∀ c ∈ H.data, isAlnum c = true)
    (hmention : hc.mention = H) (haMention : hc.aMention = "@" ++ H)
    (hrest : '@' ∉ rest.data)
    (hbody : msg.Body = "@" ++ H ++ rest)
    (hnick : run_fromNick (stringsSplit msg.From '/') ≠ hc.nick)
    (hlookup : run_senderLookup view hc msg = Except.ok hc1) :
    ∃ block : MessageBlock,
      run_messageFromHC matchString view hc msg =
        Except.ok
          { hc := hc1,
            effects := [Effect.toPris
              { Type_ := "message", Source := "", To := "server", Command := none,
                Message := some block }],
            stop := false } ∧
      block.Mentioned = true ∧ block.Stripped = rest := by
  obtain ⟨hn, -, hm, ham, -, -⟩ := run_senderLookup_frame view hc hc1 msg hlookup
  have hbne : msg.Body ≠ "" := by
    rw [hbody]
    intro e
    have := congrArg String.data e
    simp at this
  have hcond : msg.Body ≠ "" ∧ run_fromNick (stringsSplit msg.From '/') ≠ hc1.nick :=
    ⟨hbne, by rw [hn]; exact hnick⟩
  have hment : matchString ("@" ++ hc1.mention) msg.Body = true := by
    rw [hm, hmention, hbody]
    refine (hmatch H _ halnum).2 ?_
    refine ⟨[], rest.data, ?_⟩
    simp
  have hstrip : stringsReplaceAll msg.Body hc1.aMention "" = rest := by
    rw [ham, haMention, hbody]
    exact stringsReplaceAll_leading H rest hrest
  rw [run_messageFromHC_of_lookup matchString view hc hc1 msg hlookup, if_pos hcond]
  simp only [run_clientQuery, hment, if_true, hstrip]
  cases hc1.usersByName (run_fromNick (stringsSplit msg.From '/')) with
  | none => exact ⟨_, rfl, rfl, rfl⟩
  | some user => exact ⟨_, rfl, rfl, rfl⟩

/-- C4, amended, at scenario A: handle `lisa`, body `@lisa status?`. -/
theorem mention_detected_stripped_rest_witness :
    ∃ block : MessageBlock,
      run_messageFromHC literalMatchString bobView lisaClient scenarioA =
        Except.ok
          { hc := lisaClientWithBob,
            effects := [Effect.toPris
              { Type_ := "message", Source := "", To := "server", Command := none,
                Message := some block }],
            stop := false } ∧
      block.Mentioned = true ∧ block.Stripped = " status?" :=
  mention_detected_stripped_rest literalMatchString literalMatchString_matchesLiterally
    bobView lisaClient lisaClientWithBob scenarioA "lisa" " status?"
    (by decide) rfl rfl (by decide) rfl (by decide) rfl

/-- C5, as stated, fails: for the body `hey @lisa ping` the mention is
detected and the message field of the emitted query is `hey  ping`, the body
without the handle, not the raw body. -/
theorem pingStanza_message_counterexample :
    pingStanza.Body ≠ "" ∧
    run_fromNick (stringsSplit pingStanza.From '/') ≠ lisaClient.nick ∧
    run_messageFromHC literalMatchString bobView lisaClient pingStanza =
      Except.ok
        { hc := lisaClient,
          effects := [Effect.toPris
            { Type_ := "message", Source := "", To := "server", Command := none,
              Message := some pingBlock }],
          stop := false } ∧
    pingBlock.Message ≠ pingStanza.Body :=
  ⟨by decide, by decide, rfl, by decide⟩

/-- C5, amended: for a chat stanza with a non-empty body whose sender
nickname differs from the bot's display name and whose profile lookup returns,
the router emits one message query; its message field is the raw body when no
mention was detected, and the body with every occurrence of `@` followed by
the mention handle removed when one was; the stripped field is the body
without the occurrences of `aMention` in both cases. -/
theorem message_field_raw_unless_mentioned (matchString : String → String → Bool)
    (view : String → Except String apiUser) (hc hc1 : hipchatClient) (msg : xmppMessage)
    (hbody : msg.Body ≠ "")
    (hnick : run_fromNick (stringsSplit msg.From '/') ≠ hc.nick)
    (hlookup : run_senderLookup view hc msg = Except.ok hc1) :
    ∃ block : MessageBlock,
      run_messageFromHC matchString view hc msg =
        Except.ok
          { hc := hc1,
            effects := [Effect.toPris
              { Type_ := "message", Source := "", To := "server", Command := none,
                Message := some block }],
            stop := false } ∧
      block.Mentioned = matchString ("@" ++ hc.mention) msg.Body ∧
      block.Stripped = stringsReplaceAll msg.Body hc.aMention "" ∧
      (block.Mentioned = false → block.Message = msg.Body) ∧
      (block.Mentioned = true →
        block.Message = stringsReplaceAll msg.Body ("@" ++ hc.mention) "") := by
  obtain ⟨hn, -, hm, ham, -, -⟩ := run_senderLookup_frame view hc hc1 msg hlookup
  have hcond : msg.Body ≠ "" ∧ run_fromNick (stringsSplit msg.From '/') ≠ hc1.nick :=
    ⟨hbody, by rw [hn]; exact hnick⟩
  rw [run_messageFromHC_of_lookup matchString view hc hc1 msg hlookup, if_pos hcond]
  simp only [run_clientQuery, hm, ham]
  cases hmt : matchString ("@" ++ hc.mention) msg.Body <;>
    cases hc1.usersByName (run_fromNick (stringsSplit msg.From '/')) <;>
    exact ⟨_, rfl, by simp, by simp, by simp, by simp⟩

/-- C5, amended, at a stanza that does not name the bot: the message field is
the raw body. -/
theorem message_field_raw_unless_mentioned_witness :
    ∃ block : MessageBlock,
      run_messageFromHC literalMatchString bobView lisaClient
          { pingStanza with Body := "good morning" } =
        Except.ok
          { hc := lisaClient,
            effects := [Effect.toPris
              { Type_ := "message", Source := "", To := "server", Command := none,
                Message := some block }],
            stop := false } ∧
      block.Mentioned = literalMatchString ("@" ++ lisaClient.mention) "good morning" ∧
      block.Stripped = stringsReplaceAll "good morning" lisaClient.aMention "" ∧
      (block.Mentioned = false → block.Message = "good morning") ∧
      (block.Mentioned = true →
        block.Message = stringsReplaceAll "good morning" ("@" ++ lisaClient.mention) "") :=
  message_field_raw_unless_mentioned literalMatchString bobView lisaClient lisaClient
    { pingStanza with Body := "good morning" } (by decide) (by decide) rfl

/-- C10 fails on the code: a room invite (room name `Lobby`, empty body) whose
sender identity `abc@chat.hipchat.com` is unknown and has no `_` ends in the
index panic of `populateUser`; no room is recorded and no join is sent. -/
theorem invite_bad_identity_panics :
    inviteStanzaBadJid.RoomName ≠ "" ∧ inviteStanzaBadJid.Body = "" ∧
    run_messageFromHC literalMatchString bobView lisaClient inviteStanzaBadJid =
      Except.error "index out of range" :=
  ⟨by decide, rfl, rfl⟩

/-! ### Queries of the orchestration server -/

/-- A `user_request` of any lookup kind, and a `room_request` of kind `name`
or `id`, is answered by one `info` response with the id of the request, sent
to its source, that carries a not-found error or the found `id` and `name`. -/
theorem request_reply_found_or_error (hc : hipchatClient) (rid : String) (query : Query)
    (cmd : CommandBlock)
    (htype : query.Type_ = "command") (hcmd : query.Command = some cmd)
    (hact : cmd.Action = "user_request" ∨
      (cmd.Action = "room_request" ∧ (cmd.Type_ = "name" ∨ cmd.Type_ = "id"))) :
    ∃ block : CommandBlock,
      run_fromPris hc rid query =
        Except.ok
          { hc := hc,
            effects := [Effect.toPris
              { Type_ := "command", Source := "", To := query.Source,
                Command := some block, Message := none }],
            stop := false } ∧
      block.Id = cmd.Id ∧ block.Action = "info" ∧
      ((block.Error ≠ "" ∧ ∀ k, block.Map k = none) ∨
        (block.Error = "" ∧ block.Map "id" ≠ none ∧ block.Map "name" ≠ none)) := by
  rcases hact with hu | ⟨hr, hk⟩
  · have hnd : cmd.Action ≠ "disengage" := by rw [hu]; decide
    simp only [run_fromPris, htype, hcmd, if_true, if_neg hnd, hu, true_or]
    refine ⟨_, rfl, ?_⟩
    simp only [run_userRequest]
    cases run_userLookup hc cmd with
    | none => exact ⟨rfl, rfl, Or.inl ⟨by simp, fun _ => rfl⟩⟩
    | some user => exact ⟨rfl, rfl, Or.inr ⟨rfl, by simp [GoMap.set], by simp [GoMap.set]⟩⟩
  · have hnu : cmd.Action ≠ "user_request" := by rw [hr]; decide
    have hnd : cmd.Action ≠ "disengage" := by rw [hr]; decide
    have hnu2 : ¬ ("room_request" = "user_request") := by decide
    simp only [run_fromPris, htype, hcmd, if_true, if_neg hnd, if_neg hnu, if_neg hnu2, hr,
      or_true]
    refine ⟨_, rfl, ?_⟩
    rcases hk with hk | hk
    · simp only [run_roomRequest, hk, if_true]
      cases hc.roomsByName cmd.Data with
      | none => exact ⟨rfl, rfl, Or.inl ⟨by simp, fun _ => rfl⟩⟩
      | some id => exact ⟨rfl, rfl, Or.inr ⟨rfl, by simp [GoMap.set], by simp [GoMap.set]⟩⟩
    · have hkn : ¬ ("id" = "name") := by decide
      simp only [run_roomRequest, if_neg hkn, hk, if_true]
      cases hc.roomsById cmd.Data with
      | none => exact ⟨rfl, rfl, Or.inl ⟨by simp, fun _ => rfl⟩⟩
      | some name => exact ⟨rfl, rfl, Or.inr ⟨rfl, by simp [GoMap.set], by simp [GoMap.set]⟩⟩

/-- A `room_request` whose lookup kind is neither `name` nor `id` is answered
by one response with an empty error and an empty result map, whatever the
directory holds. -/
theorem room_request_other_kind_empty (hc : hipchatClient) (rid : String) (query : Query)
    (cmd : CommandBlock)
    (htype : query.Type_ = "command") (hcmd : query.Command = some cmd)
    (hact : cmd.Action = "room_request")
    (hname : cmd.Type_ ≠ "name") (hid : cmd.Type_ ≠ "id") :
    run_fromPris hc rid query =
      Except.ok
        { hc := hc,
          effects := [Effect.toPris
            { Type_ := "command", Source := "", To := query.Source,
              Command := some { Id := cmd.Id, Action := "info", Type_ := "room", Data := "",
                                Map := GoMap.empty, Error := "" },
              Message := none }],
          stop := false } := by
  have hnu : ¬ ("room_request" = "user_request") := by decide
  have hnd : ¬ ("room_request" = "disengage") := by decide
  simp only [run_fromPris, htype, hcmd, if_true, if_neg hnd, if_neg hnu, hact, or_true,
    run_roomRequest, if_neg hname, if_neg hid]

/-- C6 fails on the code: a `room_request` whose lookup kind is neither `name`
nor `id` (here `topic`) is answered by one `info` response that has an empty
error and an empty result map. -/
theorem room_request_unknown_kind_reply :
    run_fromPris lisaClient "r1" (roomRequest "topic" "general") =
      Except.ok
        { hc := lisaClient,
          effects := [Effect.toPris
            { Type_ := "command", Source := "", To := "responder",
              Command := some unknownKindReply, Message := none }],
          stop := false } ∧
    unknownKindReply.Error = "" ∧ ∀ k, unknownKindReply.Map k = none :=
  ⟨rfl, rfl, fun _ => rfl⟩

/-- C7: a `room_request` of kind `name` whose key is not in `roomsByName` is
answered by one response whose error is `Room not found` and whose result map
has no `id` and no `name` entry. -/
theorem room_request_name_not_found (hc : hipchatClient) (rid : String) (query : Query)
    (cmd : CommandBlock) (d : String)
    (htype : query.Type_ = "command") (hcmd : query.Command = some cmd)
    (hact : cmd.Action = "room_request") (hkind : cmd.Type_ = "name")
    (hdata : cmd.Data = d) (hmiss : hc.roomsByName d = none) :
    ∃ block : CommandBlock,
      run_fromPris hc rid query =
        Except.ok
          { hc := hc,
            effects := [Effect.toPris
              { Type_ := "command", Source := "", To := query.Source,
                Command := some block, Message := none }],
            stop := false } ∧
      block.Error = "Room not found" ∧ block.Map "id" = none ∧ block.Map "name" = none := by
  have hnu : cmd.Action ≠ "user_request" := by rw [hact]; decide
  have hnd : cmd.Action ≠ "disengage" := by rw [hact]; decide
  subst hdata
  simp only [run_fromPris, htype, hcmd, if_true, if_neg hnd, if_neg hnu, hact, or_true,
    run_roomRequest, hkind, hmiss]
  exact ⟨_, rfl, rfl, rfl, rfl⟩

/-- C7 at scenario B: the key `general` and an empty room directory. -/
theorem room_request_name_not_found_witness :
    ∃ block : CommandBlock,
      run_fromPris lisaClient "r1" (roomRequest "name" "general") =
        Except.ok
          { hc := lisaClient,
            effects := [Effect.toPris
              { Type_ := "command", Source := "", To := "responder",
                Command := some block, Message := none }],
            stop := false } ∧
      block.Error = "Room not found" ∧ block.Map "id" = none ∧ block.Map "name" = none :=
  room_request_name_not_found lisaClient "r1" (roomRequest "name" "general")
    { Id := "7", Action := "room_request", Type_ := "name", Data := "general",
      Map := GoMap.empty, Error := "" }
    "general" rfl rfl rfl rfl rfl rfl

/-- The loop of `groupMessage` appends the suffixes of the specification. -/
theorem groupMessage_body_eq (c : hipchatClient) (body : String) (names : List String) :
    groupMessage_body c body names = body ++ spec_mentionSuffixes c names := by
  induction names generalizing body with
  | nil => simp [groupMessage_body, spec_mentionSuffixes]
  | cons name rest ih =>
    simp only [groupMessage_body, spec_mentionSuffixes, spec_mentionSuffix]
    cases c.usersByName name with
    | none => simp [ih]
    | some user => simp [ih, String.append_assoc]

/-- C9: the stanza built by `groupMessage` has type `groupchat`, the session
identity as sender, the room address of `m.Room` in `roomsByName` followed by
`/` and the bot's display name as recipient, and as body `m.Message` followed,
for each name of `m.MentionNotify` in list order, by ` @` and the mention
handle of that name when it is in `usersByName`, and by nothing when it is
not. -/
theorem groupMessage_stanza (c : hipchatClient) (rid : String) (m : MessageBlock) :
    (groupMessage c rid m).Type_ = "groupchat" ∧
    (groupMessage c rid m).From = c.jid ∧
    (groupMessage c rid m).To = c.roomsByName.index m.Room ++ "/" ++ c.nick ∧
    (groupMessage c rid m).Body = m.Message ++ spec_mentionSuffixes c m.MentionNotify := by
  unfold groupMessage
  split
  · simp [groupMessage_body_eq]
  · rename_i h
    have hnil : m.MentionNotify = [] := by
      cases hm : m.MentionNotify with
      | nil => rfl
      | cons a t => rw [hm] at h; simp at h
    simp [hnil, spec_mentionSuffixes]

/-- The stanza built for `notifyBlock` when `bob` is the only known user: a
suffix for each of the two occurrences of `bob`, none for the unknown name,
and the recipient `/Lisa Bot` of a room that is not in `roomsByName`. -/
theorem groupMessage_example :
    groupMessage lisaClientWithBob "r1" notifyBlock =
      { Type_ := "groupchat", From := "1_9@chat.hipchat.com", FromJid := "",
        To := "/Lisa Bot", Id := "r1", Body := "deploy done @bobby @bobby",
        RoomName := "", RoomId := "" } := by
  decide

/-! ### The auth token -/

/-- The 24-bit value that `Encode` forms from three bytes, as a sum. -/
theorem xmpp.val_eq_sum (b0 b1 b2 : Nat) (h1 : b1 < 256) (h2 : b2 < 256) :
    (b0 <<< 16) ||| (b1 <<< 8) ||| b2 = b0 * 65536 + b1 * 256 + b2 := by
  have e1 : (b0 <<< 16) ||| (b1 <<< 8) = b0 * 65536 + b1 * 256 := by
    have h := Nat.mul_add_lt_is_or (show b1 * 256 < 2 ^ 16 by omega) b0
    rw [Nat.shiftLeft_eq, Nat.shiftLeft_eq]
    have e : b0 * 2 ^ 16 = 2 ^ 16 * b0 := Nat.mul_comm _ _
    rw [e, show b1 * 2 ^ 8 = b1 * 256 from rfl, ← h]
    omega
  rw [e1]
  have h := Nat.mul_add_lt_is_or (show b2 < 2 ^ 8 by omega) (b0 * 256 + b1)
  have e2 : b0 * 65536 + b1 * 256 = 2 ^ 8 * (b0 * 256 + b1) := by omega
  rw [e2, ← h]

/-- The mask `0x3F` keeps the remainder modulo 64. -/
theorem xmpp.and_63 (x : Nat) : x &&& 0x3F = x % 64 :=
  Nat.and_pow_two_sub_one_eq_mod x 6

set_option maxRecDepth 100000 in
/-- A byte is the number written by its eight bits. -/
theorem xmpp.byte_eq_bits : ∀ b : Fin 256,
    b.val = 128 * (b.val.testBit 7).toNat + 64 * (b.val.testBit 6).toNat +
      32 * (b.val.testBit 5).toNat + 16 * (b.val.testBit 4).toNat +
      8 * (b.val.testBit 3).toNat + 4 * (b.val.testBit 2).toNat +
      2 * (b.val.testBit 1).toNat + (b.val.testBit 0).toNat := by
  decide

/-- The four characters that `Encode` writes for three bytes are those of the
four six-bit groups of their 24 bits. -/
theorem xmpp.sextets_of_three (b0 b1 b2 : Fin 256) :
    spec_bitsValue [b0.val.testBit 7, b0.val.testBit 6, b0.val.testBit 5, b0.val.testBit 4,
        b0.val.testBit 3, b0.val.testBit 2] =
      (((b0.val <<< 16) ||| (b1.val <<< 8) ||| b2.val) >>> 18) &&& 0x3F ∧
    spec_bitsValue [b0.val.testBit 1, b0.val.testBit 0, b1.val.testBit 7, b1.val.testBit 6,
        b1.val.testBit 5, b1.val.testBit 4] =
      (((b0.val <<< 16) ||| (b1.val <<< 8) ||| b2.val) >>> 12) &&& 0x3F ∧
    spec_bitsValue [b1.val.testBit 3, b1.val.testBit 2, b1.val.testBit 1, b1.val.testBit 0,
        b2.val.testBit 7, b2.val.testBit 6] =
      (((b0.val <<< 16) ||| (b1.val <<< 8) ||| b2.val) >>> 6) &&& 0x3F ∧
    spec_bitsValue [b2.val.testBit 5, b2.val.testBit 4, b2.val.testBit 3, b2.val.testBit 2,
        b2.val.testBit 1, b2.val.testBit 0] =
      ((b0.val <<< 16) ||| (b1.val <<< 8) ||| b2.val) &&& 0x3F := by
  have d0 := xmpp.byte_eq_bits b0
  have d1 := xmpp.byte_eq_bits b1
  have d2 := xmpp.byte_eq_bits b2
  rw [xmpp.val_eq_sum b0.val b1.val b2.val b1.isLt b2.isLt]
  simp only [xmpp.and_63, Nat.shiftRight_eq_div_pow, spec_bitsValue, List.foldl]
  have := Bool.toNat_le (b0.val.testBit 7)
  have := Bool.toNat_le (b0.val.testBit 6)
  have := Bool.toNat_le (b0.val.testBit 5)
  have := Bool.toNat_le (b0.val.testBit 4)
  have := Bool.toNat_le (b0.val.testBit 3)
  have := Bool.toNat_le (b0.val.testBit 2)
  have := Bool.toNat_le (b0.val.testBit 1)
  have := Bool.toNat_le (b0.val.testBit 0)
  have := Bool.toNat_le (b1.val.testBit 7)
  have := Bool.toNat_le (b1.val.testBit 6)
  have := Bool.toNat_le (b1.val.testBit 5)
  have := Bool.toNat_le (b1.val.testBit 4)
  have := Bool.toNat_le (b1.val.testBit 3)
  have := Bool.toNat_le (b1.val.testBit 2)
  have := Bool.toNat_le (b1.val.testBit 1)
  have := Bool.toNat_le (b1.val.testBit 0)
  have := Bool.toNat_le (b2.val.testBit 7)
  have := Bool.toNat_le (b2.val.testBit 6)
  have := Bool.toNat_le (b2.val.testBit 5)
  have := Bool.toNat_le (b2.val.testBit 4)
  have := Bool.toNat_le (b2.val.testBit 3)
  have := Bool.toNat_le (b2.val.testBit 2)
  have := Bool.toNat_le (b2.val.testBit 1)
  have := Bool.toNat_le (b2.val.testBit 0)
  refine ⟨?_, ?_, ?_, ?_⟩ <;> omega

/-- The characters that `Encode` writes for a rest of two bytes are those of
the three six-bit groups of their 16 bits and two added zero bits. -/
theorem xmpp.sextets_of_two (b0 b1 : Fin 256) :
    spec_bitsValue [b0.val.testBit 7, b0.val.testBit 6, b0.val.testBit 5, b0.val.testBit 4,
        b0.val.testBit 3, b0.val.testBit 2] =
      (((b0.val <<< 16) ||| (b1.val <<< 8)) >>> 18) &&& 0x3F ∧
    spec_bitsValue [b0.val.testBit 1, b0.val.testBit 0, b1.val.testBit 7, b1.val.testBit 6,
        b1.val.testBit 5, b1.val.testBit 4] =
      (((b0.val <<< 16) ||| (b1.val <<< 8)) >>> 12) &&& 0x3F ∧
    spec_bitsValue [b1.val.testBit 3, b1.val.testBit 2, b1.val.testBit 1, b1.val.testBit 0,
        false, false] =
      (((b0.val <<< 16) ||| (b1.val <<< 8)) >>> 6) &&& 0x3F := by
  have d0 := xmpp.byte_eq_bits b0
  have d1 := xmpp.byte_eq_bits b1
  have hv := xmpp.val_eq_sum b0.val b1.val 0 b1.isLt (by decide)
  rw [Nat.or_zero, Nat.add_zero] at hv
  rw [hv]
  simp only [xmpp.and_63, Nat.shiftRight_eq_div_pow, spec_bitsValue, List.foldl,
    Bool.toNat_false]
  have := Bool.toNat_le (b0.val.testBit 7)
  have := Bool.toNat_le (b0.val.testBit 6)
  have := Bool.toNat_le (b0.val.testBit 5)
  have := Bool.toNat_le (b0.val.testBit 4)
  have := Bool.toNat_le (b0.val.testBit 3)
  have := Bool.toNat_le (b0.val.testBit 2)
  have := Bool.toNat_le (b0.val.testBit 1)
  have := Bool.toNat_le (b0.val.testBit 0)
  have := Bool.toNat_le (b1.val.testBit 7)
  have := Bool.toNat_le (b1.val.testBit 6)
  have := Bool.toNat_le (b1.val.testBit 5)
  have := Bool.toNat_le (b1.val.testBit 4)
  have := Bool.toNat_le (b1.val.testBit 3)
  have := Bool.toNat_le (b1.val.testBit 2)
  have := Bool.toNat_le (b1.val.testBit 1)
  have := Bool.toNat_le (b1.val.testBit 0)
  refine ⟨?_, ?_, ?_⟩ <;> omega

/-- The characters that `Encode` writes for a rest of one byte are those of
the two six-bit groups of its 8 bits and four added zero bits. -/
theorem xmpp.sextets_of_one (b0 : Fin 256) :
    spec_bitsValue [b0.val.testBit 7, b0.val.testBit 6, b0.val.testBit 5, b0.val.testBit 4,
        b0.val.testBit 3, b0.val.testBit 2] =
      ((b0.val <<< 16) >>> 18) &&& 0x3F ∧
    spec_bitsValue [b0.val.testBit 1, b0.val.testBit 0, false, false, false, false] =
      ((b0.val <<< 16) >>> 12) &&& 0x3F := by
  have d0 := xmpp.byte_eq_bits b0
  have hv : b0.val <<< 16 = b0.val * 65536 := Nat.shiftLeft_eq _ _
  rw [hv]
  simp only [xmpp.and_63, Nat.shiftRight_eq_div_pow, spec_bitsValue, List.foldl,
    Bool.toNat_false]
  have := Bool.toNat_le (b0.val.testBit 7)
  have := Bool.toNat_le (b0.val.testBit 6)
  have := Bool.toNat_le (b0.val.testBit 5)
  have := Bool.toNat_le (b0.val.testBit 4)
  have := Bool.toNat_le (b0.val.testBit 3)
  have := Bool.toNat_le (b0.val.testBit 2)
  have := Bool.toNat_le (b0.val.testBit 1)
  have := Bool.toNat_le (b0.val.testBit 0)
  refine ⟨?_, ?_⟩ <;> omega

/-- The six-bit groups of three bytes followed by more bytes. -/
theorem xmpp.spec_base64Chars_three (b0 b1 b2 : Fin 256) (rest : Bytes) :
    spec_base64Chars (b0 :: b1 :: b2 :: rest) =
      encodeChar ((((b0.val <<< 16) ||| (b1.val <<< 8) ||| b2.val) >>> 18) &&& 0x3F) ::
      encodeChar ((((b0.val <<< 16) ||| (b1.val <<< 8) ||| b2.val) >>> 12) &&& 0x3F) ::
      encodeChar ((((b0.val <<< 16) ||| (b1.val <<< 8) ||| b2.val) >>> 6) &&& 0x3F) ::
      encodeChar (((b0.val <<< 16) ||| (b1.val <<< 8) ||| b2.val) &&& 0x3F) ::
      spec_base64Chars rest := by
  obtain ⟨h0, h1, h2, h3⟩ := xmpp.sextets_of_three b0 b1 b2
  rw [← h0, ← h1, ← h2, ← h3]
  rfl

/-- The six-bit groups of a rest of two bytes. -/
theorem xmpp.spec_base64Chars_two (b0 b1 : Fin 256) :
    spec_base64Chars [b0, b1] =
      [encodeChar ((((b0.val <<< 16) ||| (b1.val <<< 8)) >>> 18) &&& 0x3F),
       encodeChar ((((b0.val <<< 16) ||| (b1.val <<< 8)) >>> 12) &&& 0x3F),
       encodeChar ((((b0.val <<< 16) ||| (b1.val <<< 8)) >>> 6) &&& 0x3F)] := by
  obtain ⟨h0, h1, h2⟩ := xmpp.sextets_of_two b0 b1
  rw [← h0, ← h1, ← h2]
  rfl

/-- The six-bit groups of a rest of one byte. -/
theorem xmpp.spec_base64Chars_one (b0 : Fin 256) :
    spec_base64Chars [b0] =
      [encodeChar (((b0.val <<< 16) >>> 18) &&& 0x3F),
       encodeChar (((b0.val <<< 16) >>> 12) &&& 0x3F)] := by
  obtain ⟨h0, h1⟩ := xmpp.sextets_of_one b0
  rw [← h0, ← h1]
  rfl

/-- Go's `Encode` writes the standard base64 encoding of its input. -/
theorem xmpp.base64Encode_eq_spec (src : Bytes) :
    base64Encode src = (spec_base64 src).data := by
  induction src using base64Encode.induct with
  | case1 b0 b1 b2 rest ih =>
    simp only [base64Encode, spec_base64, xmpp.spec_base64Chars_three, List.length_cons,
      List.cons_append, List.cons.injEq, true_and]
    rw [ih]
    simp only [spec_base64]
    congr 2
    omega
  | case2 b0 b1 =>
    simp only [base64Encode, spec_base64, xmpp.spec_base64Chars_two]
    rfl
  | case3 b0 =>
    simp only [base64Encode, spec_base64, xmpp.spec_base64Chars_one]
    rfl
  | case4 => rfl

/-- The result of `EncodeToString` is the standard base64 encoding. -/
theorem xmpp.EncodeToString_eq_spec (src : Bytes) : EncodeToString src = spec_base64 src :=
  String.ext (xmpp.base64Encode_eq_spec src)

/-- The model of `EncodeToString` on the test vectors of RFC 4648, section 10. -/
theorem xmpp.EncodeToString_rfc_vectors :
    EncodeToString (asciiBytes "") = "" ∧
    EncodeToString (asciiBytes "f") = "Zg==" ∧
    EncodeToString (asciiBytes "fo") = "Zm8=" ∧
    EncodeToString (asciiBytes "foo") = "Zm9v" ∧
    EncodeToString (asciiBytes "foob") = "Zm9vYg==" ∧
    EncodeToString (asciiBytes "fooba") = "Zm9vYmE=" ∧
    EncodeToString (asciiBytes "foobar") = "Zm9vYmFy" := by
  decide

/-- The token sent for the user `u`, the password `p` and the resource `bot`. -/
theorem xmpp.Auth_token_example :
    (Auth (default, none) (asciiBytes "u") (asciiBytes "p") (asciiBytes "bot")).sent =
      { Ns := "http://hipchat.com", Value := "AHUAcABib3Q=" } := by
  decide

/-- C8: the character data of the `auth` element that `Auth` sends is the
standard base64 encoding of the byte `0x00`, the username, `0x00`, the
password, `0x00` and the resource, in this order. -/
theorem Auth_sends_base64_token (decoded : xmpp.authResponse × Option String)
    (username password resource : xmpp.Bytes) :
    (xmpp.Auth decoded username password resource).sent.Value =
      xmpp.spec_base64 ([0] ++ username ++ [0] ++ password ++ [0] ++ resource) := by
  simp only [xmpp.Auth]
  exact xmpp.EncodeToString_eq_spec _

/-! ### The listener -/

/-- Session negotiation makes quiet calls only. -/
theorem initializeStream_loop_quiet (c : hipchatClient) (elements : List InitElement) :
    ∀ e ∈ (initializeStream_loop c elements).effects, e.quiet = true := by
  induction elements with
  | nil => simp [initializeStream_loop]
  | cons el rest ih =>
    cases el with
    | stream tls a =>
      cases tls with
      | true =>
        intro e he
        simp only [initializeStream_loop, List.mem_cons] at he
        rcases he with he | he
        · subst he; rfl
        · exact ih e he
      | false =>
        obtain ⟨info, err⟩ := a
        cases err with
        | none =>
          intro e he
          simp only [initializeStream_loop, List.mem_singleton] at he
          subst he; rfl
        | some err =>
          intro e he
          simp only [initializeStream_loop, List.mem_singleton] at he
          subst he; rfl
    | proceed =>
      intro e he
      simp only [initializeStream_loop, List.mem_cons] at he
      rcases he with he | he | he
      · subst he; rfl
      · subst he; rfl
      · exact ih e he
    | other => simpa [initializeStream_loop] using ih

/-- A call of `establishConnection` that returns an error makes quiet calls
only; a call that returns `nil` makes quiet calls and ends with `Join` and
`Available`. -/
theorem establishConnection_trace (c : hipchatClient) (a : Attempt) :
    ((establishConnection c a).err ≠ none ∧
      ∀ e ∈ (establishConnection c a).effects, e.quiet = true) ∨
    ((establishConnection c a).err = none ∧
      ∃ (pre : List ListenEffect) (jid nick : String) (rooms : List String),
        (∀ e ∈ pre, e.quiet = true) ∧
        (establishConnection c a).effects =
          pre ++ [ListenEffect.join jid nick rooms, ListenEffect.available jid]) := by
  have hq := initializeStream_loop_quiet c a.elements
  unfold establishConnection
  cases hc : a.connect with
  | some err =>
    left
    refine ⟨by simp, ?_⟩
    intro e he
    simp only [List.mem_singleton] at he
    subst he; rfl
  | none =>
    simp only
    cases hi : (initializeStream c a.elements).err with
    | some err =>
      left
      refine ⟨by simp, ?_⟩
      intro e he
      simp only [initializeStream, List.mem_cons] at he
      rcases he with he | he | he
      · subst he; rfl
      · subst he; rfl
      · exact hq e he
    | none =>
      simp only
      cases hs : a.self with
      | error err =>
        left
        refine ⟨by simp, ?_⟩
        intro e he
        simp only [initializeStream, List.mem_cons, List.mem_append, List.not_mem_nil,
          or_false] at he
        rcases he with (he | he | he) | he <;> first | exact hq e he | (subst he; rfl)
      | ok self =>
        right
        refine ⟨rfl, ?_⟩
        refine ⟨ListenEffect.connect hipchatHost :: (initializeStream c a.elements).effects ++
          [ListenEffect.vcardRequest (initializeStream c a.elements).hc.jid "",
           ListenEffect.discover
             (establishConnection_self (initializeStream c a.elements).hc self).jid
             (establishConnection_self (initializeStream c a.elements).hc self).mucHost],
          (establishConnection_rooms
            (establishConnection_self (initializeStream c a.elements).hc self) a.rooms).1.jid,
          (establishConnection_rooms
            (establishConnection_self (initializeStream c a.elements).hc self) a.rooms).1.nick,
          (establishConnection_rooms
            (establishConnection_self (initializeStream c a.elements).hc self) a.rooms).2,
          ?_, ?_⟩
        · intro e he
          simp only [initializeStream, List.mem_cons, List.mem_append, List.not_mem_nil,
            or_false] at he
          rcases he with (he | he | he) | he | he <;>
            first | exact hq e he | (subst he; rfl)
        · simp


/-- A quiet call is no `Disconnect`, no sleep and no `Available`. -/
theorem ListenEffect.quiet_spec (e : ListenEffect) (h : e.quiet = true) :
    e ≠ ListenEffect.disconnect ∧ e.isSleep = false ∧ e.isAvailable = false := by
  cases e <;> simp_all [ListenEffect.quiet, ListenEffect.isSleep, ListenEffect.isAvailable]

/-- Quiet calls hold no `Disconnect`, no sleep and no `Available`. -/
theorem quiet_counts (q : List ListenEffect) (hq : ∀ e ∈ q, e.quiet = true) :
    q.count ListenEffect.disconnect = 0 ∧ q.countP ListenEffect.isSleep = 0 ∧
    q.countP ListenEffect.isAvailable = 0 := by
  refine ⟨?_, ?_, ?_⟩
  · rw [List.count_eq_zero]
    intro hmem
    exact (ListenEffect.quiet_spec _ (hq _ hmem)).1 rfl
  · rw [List.countP_eq_zero]
    intro e he
    simp [(ListenEffect.quiet_spec e (hq e he)).2.1]
  · rw [List.countP_eq_zero]
    intro e he
    simp [(ListenEffect.quiet_spec e (hq e he)).2.2]

/-- Quiet calls in front of a trace add no retry cycle. -/
theorem spec_retryCycles_quiet_append (q l : List ListenEffect)
    (hq : ∀ e ∈ q, e.quiet = true) : spec_retryCycles (q ++ l) = spec_retryCycles l := by
  induction q with
  | nil => rfl
  | cons e q ih =>
    have he : e ≠ ListenEffect.disconnect :=
      (ListenEffect.quiet_spec e (hq e (List.mem_cons_self e q))).1
    have ih1 := ih (fun x hx => hq x (List.mem_cons_of_mem e hx))
    simp [spec_retryCycles, he, ih1]

/-- A `Disconnect` followed by the sleep of 10 seconds is one retry cycle. -/
theorem spec_retryCycles_cycle (l : List ListenEffect) :
    spec_retryCycles (ListenEffect.disconnect :: ListenEffect.sleep 10 :: l) =
      spec_retryCycles l + 1 := by
  simp [spec_retryCycles, Nat.add_comm]

/-- Whether `establishConnection` returns an error is decided by what the
service does, not by the state of the client. -/
theorem establishConnection_err_eq (c c1 : hipchatClient) (a : Attempt) :
    (establishConnection c a).err = (establishConnection c1 a).err := by
  have hloop : ∀ (els : List InitElement),
      (initializeStream_loop c els).err = (initializeStream_loop c1 els).err := by
    intro els
    induction els with
    | nil => rfl
    | cons el rest ih =>
      cases el with
      | stream tls au =>
        cases tls with
        | true => simpa [initializeStream_loop] using ih
        | false =>
          obtain ⟨info, err⟩ := au
          cases err <;> rfl
      | proceed => simpa [initializeStream_loop] using ih
      | other => simpa [initializeStream_loop] using ih
  have hinit : (initializeStream c a.elements).err = (initializeStream c1 a.elements).err := by
    simpa [initializeStream] using hloop a.elements
  unfold establishConnection
  cases a.connect with
  | some err => rfl
  | none =>
    simp only
    rw [hinit]
    cases (initializeStream c1 a.elements).err with
    | some err => rfl
    | none =>
      simp only
      cases a.self <;> rfl


/-- The establishment loop leaves at a call that returns `nil`. -/
theorem listen_establish_ok (c : hipchatClient) (a : Attempt) (rest : List Attempt)
    (h : (establishConnection c a).err = none) :
    listen_establish c (a :: rest) =
      { hc := (establishConnection c a).hc, effects := (establishConnection c a).effects,
        calls := 1, phase := ListenPhase.reading } := by
  simp only [listen_establish, h]

/-- The establishment loop goes on after a call that returns an error: it
disconnects, sleeps 10 seconds and calls again. -/
theorem listen_establish_err (c : hipchatClient) (a : Attempt) (rest : List Attempt)
    (h : (establishConnection c a).err ≠ none) :
    listen_establish c (a :: rest) =
      { hc := (listen_establish (establishConnection c a).hc rest).hc,
        effects := (establishConnection c a).effects ++
          [ListenEffect.disconnect, ListenEffect.sleep 10] ++
          (listen_establish (establishConnection c a).hc rest).effects,
        calls := (listen_establish (establishConnection c a).hc rest).calls + 1,
        phase := (listen_establish (establishConnection c a).hc rest).phase } := by
  obtain ⟨err, herr⟩ := Option.ne_none_iff_exists'.mp h
  simp only [listen_establish, herr]

/-- The establishment loop on attempts that fail followed by one that
succeeds: one call per attempt up to the success, one retry cycle per failure,
one completed bring-up at the end of the trace, and the read loop is reached. -/
theorem listen_establish_retries (c : hipchatClient) (fails : List Attempt)
    (good : Attempt) (later : List Attempt)
    (hfail : ∀ a ∈ fails, ∀ c1, (establishConnection c1 a).err ≠ none)
    (hgood : ∀ c1, (establishConnection c1 good).err = none) :
    (listen_establish c (fails ++ good :: later)).calls = fails.length + 1 ∧
    (listen_establish c (fails ++ good :: later)).phase = ListenPhase.reading ∧
    (listen_establish c (fails ++ good :: later)).effects.count ListenEffect.disconnect =
      fails.length ∧
    (listen_establish c (fails ++ good :: later)).effects.countP ListenEffect.isSleep =
      fails.length ∧
    spec_retryCycles (listen_establish c (fails ++ good :: later)).effects = fails.length ∧
    (listen_establish c (fails ++ good :: later)).effects.countP ListenEffect.isAvailable = 1 ∧
    ∃ (pre : List ListenEffect) (jid : String),
      (listen_establish c (fails ++ good :: later)).effects =
        pre ++ [ListenEffect.available jid] := by
  induction fails generalizing c with
  | nil =>
    rcases establishConnection_trace c good with ⟨hne, -⟩ | ⟨-, pre, jid, nick, rooms, hq, heff⟩
    · exact absurd (hgood c) hne
    · obtain ⟨hd, hs, ha⟩ := quiet_counts pre hq
      have hcyc := spec_retryCycles_quiet_append pre
        [ListenEffect.join jid nick rooms, ListenEffect.available jid] hq
      rw [List.nil_append, listen_establish_ok c good later (hgood c)]
      refine ⟨rfl, rfl, ?_, ?_, ?_, ?_, pre ++ [ListenEffect.join jid nick rooms], jid, ?_⟩
      · show List.count _ (establishConnection c good).effects = _
        rw [heff, List.count_append, hd]
        simp [List.count_cons]
      · show List.countP _ (establishConnection c good).effects = _
        rw [heff, List.countP_append, hs]
        simp [List.countP_cons, ListenEffect.isSleep]
      · show spec_retryCycles (establishConnection c good).effects = _
        rw [heff, hcyc]
        simp [spec_retryCycles]
      · show List.countP _ (establishConnection c good).effects = _
        rw [heff, List.countP_append, ha]
        simp [List.countP_cons, ListenEffect.isAvailable]
      · show (establishConnection c good).effects = _
        rw [heff]
        simp
  | cons a fails ih =>
    have hne := hfail a (List.mem_cons_self a fails) c
    rcases establishConnection_trace c a with ⟨-, hq⟩ | ⟨hnone, -⟩
    · obtain ⟨hd, hs, ha⟩ := quiet_counts _ hq
      obtain ⟨ic, ip, id, is, icyc, ia, pre, jid, ieff⟩ :=
        ih (establishConnection c a).hc
          (fun x hx => hfail x (List.mem_cons_of_mem a hx))
      rw [List.cons_append, listen_establish_err c a _ hne]
      refine ⟨?_, ip, ?_, ?_, ?_, ?_, ?_⟩
      · show _ + 1 = _
        rw [ic, List.length_cons]
      · show List.count _ (_ ++ _ ++ _) = _
        rw [List.count_append, List.count_append, hd, id]
        simp [List.count_cons, Nat.add_comm]
      · show List.countP _ (_ ++ _ ++ _) = _
        rw [List.countP_append, List.countP_append, hs, is]
        simp [List.countP_cons, ListenEffect.isSleep, Nat.add_comm]
      · show spec_retryCycles (_ ++ _ ++ _) = _
        rw [List.append_assoc, spec_retryCycles_quiet_append _ _ hq]
        simp only [List.cons_append, List.nil_append]
        rw [spec_retryCycles_cycle, icyc, List.length_cons]
      · show List.countP _ (_ ++ _ ++ _) = _
        rw [List.countP_append, List.countP_append, ha, ia]
        simp [List.countP_cons, ListenEffect.isAvailable]
      · refine ⟨(establishConnection c a).effects ++
          [ListenEffect.disconnect, ListenEffect.sleep 10] ++ pre, jid, ?_⟩
        show _ ++ _ ++ _ = _
        rw [ieff]
        simp
    · exact absurd hnone hne


/-- Session negotiation makes quiet calls only, and never dials. -/
theorem initializeStream_loop_inner (c : hipchatClient) (elements : List InitElement) :
    ∀ e ∈ (initializeStream_loop c elements).effects,
      e.quiet = true ∧ e.isConnect = false := by
  induction elements with
  | nil => simp [initializeStream_loop]
  | cons el rest ih =>
    cases el with
    | stream tls a =>
      cases tls with
      | true =>
        intro e he
        simp only [initializeStream_loop, List.mem_cons] at he
        rcases he with he | he
        · subst he; exact ⟨rfl, rfl⟩
        · exact ih e he
      | false =>
        obtain ⟨info, err⟩ := a
        cases err with
        | none =>
          intro e he
          simp only [initializeStream_loop, List.mem_singleton] at he
          subst he; exact ⟨rfl, rfl⟩
        | some err =>
          intro e he
          simp only [initializeStream_loop, List.mem_singleton] at he
          subst he; exact ⟨rfl, rfl⟩
    | proceed =>
      intro e he
      simp only [initializeStream_loop, List.mem_cons] at he
      rcases he with he | he | he
      · subst he; exact ⟨rfl, rfl⟩
      · subst he; exact ⟨rfl, rfl⟩
      · exact ih e he
    | other => simpa [initializeStream_loop] using ih

/-- The shape of the trace of one call of `establishConnection`: it starts
with the dial, which is its only dial; a call that returns an error makes
quiet calls after it; a call that returns `nil` makes quiet calls and then
`Join` and `Available`, which end it. -/
theorem establishConnection_shape (c : hipchatClient) (a : Attempt) :
    ((establishConnection c a).err ≠ none ∧
      ∃ rest : List ListenEffect,
        (establishConnection c a).effects = ListenEffect.connect hipchatHost :: rest ∧
        ∀ e ∈ rest, e.quiet = true ∧ e.isConnect = false) ∨
    ((establishConnection c a).err = none ∧
      ∃ (pre : List ListenEffect) (jid nick : String) (rooms : List String),
        (establishConnection c a).effects =
          ListenEffect.connect hipchatHost ::
            (pre ++ [ListenEffect.join jid nick rooms, ListenEffect.available jid]) ∧
        ∀ e ∈ pre, e.quiet = true ∧ e.isConnect = false) := by
  have hq := initializeStream_loop_inner c a.elements
  unfold establishConnection
  cases hc : a.connect with
  | some err =>
    left
    exact ⟨by simp, [], rfl, by simp⟩
  | none =>
    simp only
    cases hi : (initializeStream c a.elements).err with
    | some err =>
      left
      refine ⟨by simp, _, rfl, ?_⟩
      intro e he
      simp only [initializeStream, List.mem_cons] at he
      rcases he with he | he
      · subst he; exact ⟨rfl, rfl⟩
      · exact hq e he
    | none =>
      simp only
      cases hs : a.self with
      | error err =>
        left
        refine ⟨by simp, (initializeStream c a.elements).effects ++
          [ListenEffect.vcardRequest (initializeStream c a.elements).hc.jid ""], by simp, ?_⟩
        intro e he
        simp only [initializeStream, List.mem_cons, List.mem_append, List.not_mem_nil,
          or_false] at he
        rcases he with (he | he) | he <;>
          first | exact hq e he | (subst he; exact ⟨rfl, rfl⟩)
      | ok self =>
        right
        refine ⟨rfl, (initializeStream c a.elements).effects ++
          [ListenEffect.vcardRequest (initializeStream c a.elements).hc.jid "",
           ListenEffect.discover
             (establishConnection_self (initializeStream c a.elements).hc self).jid
             (establishConnection_self (initializeStream c a.elements).hc self).mucHost],
          (establishConnection_rooms
            (establishConnection_self (initializeStream c a.elements).hc self) a.rooms).1.jid,
          (establishConnection_rooms
            (establishConnection_self (initializeStream c a.elements).hc self) a.rooms).1.nick,
          (establishConnection_rooms
            (establishConnection_self (initializeStream c a.elements).hc self) a.rooms).2,
          ?_, ?_⟩
        · simp
        · intro e he
          simp only [initializeStream, List.mem_cons, List.mem_append, List.not_mem_nil,
            or_false] at he
          rcases he with (he | he) | he | he <;>
            first | exact hq e he | (subst he; exact ⟨rfl, rfl⟩)

/-- Every call of `establishConnection` dials once. -/
theorem establishConnection_one_dial (c : hipchatClient) (a : Attempt) :
    (establishConnection c a).effects.countP ListenEffect.isConnect = 1 := by
  rcases establishConnection_shape c a with ⟨-, rest, heff, hrest⟩ |
      ⟨-, pre, jid, nick, rooms, heff, hpre⟩
  · have h0 : rest.countP ListenEffect.isConnect = 0 := by
      rw [List.countP_eq_zero]
      intro e he
      simp [(hrest e he).2]
    rw [heff, List.countP_cons, h0]
    rfl
  · have h0 : pre.countP ListenEffect.isConnect = 0 := by
      rw [List.countP_eq_zero]
      intro e he
      simp [(hpre e he).2]
    rw [heff, List.countP_cons, List.countP_append, h0]
    rfl

/-- The trace of the establishment loop on attempts that fail followed by
one that succeeds is the trace of the specification: the trace of each failed
call followed by `Disconnect` and the sleep of 10 seconds, in the order of the
calls, then the trace of the successful call; the loop leaves the client of
that call. -/
theorem listen_establish_trace (c : hipchatClient) (fails : List Attempt)
    (good : Attempt) (later : List Attempt)
    (hfail : ∀ a ∈ fails, ∀ c1, (establishConnection c1 a).err ≠ none)
    (hgood : ∀ c1, (establishConnection c1 good).err = none) :
    (listen_establish c (fails ++ good :: later)).effects =
      spec_retryTrace (spec_callTraces c fails)
        (establishConnection (spec_clientAfter c fails) good).effects ∧
    (listen_establish c (fails ++ good :: later)).hc =
      (establishConnection (spec_clientAfter c fails) good).hc := by
  induction fails generalizing c with
  | nil =>
    rw [List.nil_append, listen_establish_ok c good later (hgood c)]
    exact ⟨rfl, rfl⟩
  | cons a fails ih =>
    have hne := hfail a (List.mem_cons_self a fails) c
    obtain ⟨ieff, ihc⟩ := ih (establishConnection c a).hc
      (fun x hx => hfail x (List.mem_cons_of_mem a hx))
    rw [List.cons_append, listen_establish_err c a _ hne]
    refine ⟨?_, ?_⟩
    · show _ ++ _ ++ (listen_establish _ _).effects = _
      rw [ieff]
      rfl
    · show (listen_establish _ _).hc = _
      rw [ihc]
      rfl

/-- The establishment loop dials once per call: one more time than there are
failing attempts. -/
theorem listen_establish_dials (c : hipchatClient) (fails : List Attempt)
    (good : Attempt) (later : List Attempt)
    (hfail : ∀ a ∈ fails, ∀ c1, (establishConnection c1 a).err ≠ none)
    (hgood : ∀ c1, (establishConnection c1 good).err = none) :
    (listen_establish c (fails ++ good :: later)).effects.countP ListenEffect.isConnect =
      fails.length + 1 := by
  induction fails generalizing c with
  | nil =>
    rw [List.nil_append, listen_establish_ok c good later (hgood c)]
    exact establishConnection_one_dial c good
  | cons a fails ih =>
    have hne := hfail a (List.mem_cons_self a fails) c
    have ih1 := ih (establishConnection c a).hc
      (fun x hx => hfail x (List.mem_cons_of_mem a hx))
    rw [List.cons_append, listen_establish_err c a _ hne]
    show List.countP _ (_ ++ _ ++ _) = _
    rw [List.countP_append, List.countP_append, establishConnection_one_dial, ih1,
      List.length_cons]
    simp [List.countP_cons, ListenEffect.isConnect, Nat.add_comm]

/-- The traces of calls that fail: as many as there are attempts, each the
dial followed by quiet calls. -/
theorem spec_callTraces_failed (c : hipchatClient) (fails : List Attempt)
    (hfail : ∀ a ∈ fails, ∀ c1, (establishConnection c1 a).err ≠ none) :
    (spec_callTraces c fails).length = fails.length ∧
    ∀ t ∈ spec_callTraces c fails,
      ∃ rest : List ListenEffect, t = ListenEffect.connect hipchatHost :: rest ∧
        ∀ e ∈ rest, e.quiet = true ∧ e.isConnect = false := by
  induction fails generalizing c with
  | nil => simp [spec_callTraces]
  | cons a fails ih =>
    have hne := hfail a (List.mem_cons_self a fails) c
    obtain ⟨il, it⟩ := ih (establishConnection c a).hc
      (fun x hx => hfail x (List.mem_cons_of_mem a hx))
    refine ⟨by simp [spec_callTraces, il], ?_⟩
    intro t ht
    simp only [spec_callTraces, List.mem_cons] at ht
    rcases ht with ht | ht
    · rcases establishConnection_shape c a with ⟨-, rest, heff, hrest⟩ | ⟨hnone, -⟩
      · exact ⟨rest, by rw [ht, heff], hrest⟩
      · exact absurd hnone hne
    · exact it t ht


/-- C12: when `establishConnection` returns an error on the first `N` attempts
(the list `fails`) and `nil` on the next one, the establishment loop of
`listen` calls it `N + 1` times, which shows in the trace as `N + 1` dials;
the trace is the trace of the first failed call, `Disconnect`, the sleep of 10
seconds, the trace of the second failed call, `Disconnect`, the sleep, and so
on, and last the trace of the successful call: one cycle after each failure,
between it and the next call, and none after the success.  No call holds a
`Disconnect` or a sleep, the failed calls hold no `Join` and no `Available`,
and the successful call ends with them, so bring-up completes once.  Then
`listen` goes on with the read loop from the client that bring-up left. -/
theorem listen_retries_then_reads (c : hipchatClient) (fails : List Attempt)
    (good : Attempt) (later : List Attempt) (received : List Received)
    (hfail : ∀ a ∈ fails, ∀ c1, (establishConnection c1 a).err ≠ none)
    (hgood : ∀ c1, (establishConnection c1 good).err = none) :
    (listen_establish c (fails ++ good :: later)).calls = fails.length + 1 ∧
    (listen_establish c (fails ++ good :: later)).effects.count ListenEffect.disconnect =
      fails.length ∧
    (listen_establish c (fails ++ good :: later)).effects.countP ListenEffect.isSleep =
      fails.length ∧
    spec_retryCycles (listen_establish c (fails ++ good :: later)).effects = fails.length ∧
    (listen_establish c (fails ++ good :: later)).effects.countP ListenEffect.isAvailable = 1 ∧
    (∃ (pre : List ListenEffect) (jid : String),
      (listen_establish c (fails ++ good :: later)).effects =
        pre ++ [ListenEffect.available jid]) ∧
    (listen_establish c (fails ++ good :: later)).phase = ListenPhase.reading ∧
    listen c (fails ++ good :: later) received =
      { hc := (listen_read (listen_establish c (fails ++ good :: later)).hc received).hc,
        effects := (listen_establish c (fails ++ good :: later)).effects ++
          (listen_read (listen_establish c (fails ++ good :: later)).hc received).effects,
        calls := (listen_establish c (fails ++ good :: later)).calls +
          (listen_read (listen_establish c (fails ++ good :: later)).hc received).calls,
        phase :=
          (listen_read (listen_establish c (fails ++ good :: later)).hc received).phase } ∧
    (listen_establish c (fails ++ good :: later)).effects.countP ListenEffect.isConnect =
      fails.length + 1 ∧
    (listen_establish c (fails ++ good :: later)).effects =
      spec_retryTrace (spec_callTraces c fails)
        (establishConnection (spec_clientAfter c fails) good).effects ∧
    (listen_establish c (fails ++ good :: later)).hc =
      (establishConnection (spec_clientAfter c fails) good).hc ∧
    (spec_callTraces c fails).length = fails.length ∧
    (∀ t ∈ spec_callTraces c fails,
      ∃ rest : List ListenEffect, t = ListenEffect.connect hipchatHost :: rest ∧
        ∀ e ∈ rest, e.quiet = true ∧ e.isConnect = false) ∧
    ∃ (pre : List ListenEffect) (jid nick : String) (rooms : List String),
      (establishConnection (spec_clientAfter c fails) good).effects =
        ListenEffect.connect hipchatHost ::
          (pre ++ [ListenEffect.join jid nick rooms, ListenEffect.available jid]) ∧
      ∀ e ∈ pre, e.quiet = true ∧ e.isConnect = false := by
  obtain ⟨hcalls, hphase, hd, hs, hcyc, ha, hlast⟩ :=
    listen_establish_retries c fails good later hfail hgood
  obtain ⟨htrace, hhc⟩ := listen_establish_trace c fails good later hfail hgood
  obtain ⟨hlen, hshape⟩ := spec_callTraces_failed c fails hfail
  have hdial := listen_establish_dials c fails good later hfail hgood
  have hok : ∃ (pre : List ListenEffect) (jid nick : String) (rooms : List String),
      (establishConnection (spec_clientAfter c fails) good).effects =
        ListenEffect.connect hipchatHost ::
          (pre ++ [ListenEffect.join jid nick rooms, ListenEffect.available jid]) ∧
      ∀ e ∈ pre, e.quiet = true ∧ e.isConnect = false := by
    rcases establishConnection_shape (spec_clientAfter c fails) good with ⟨hne, -⟩ | ⟨-, h⟩
    · exact absurd (hgood _) hne
    · exact h
  refine ⟨hcalls, hd, hs, hcyc, ha, hlast, hphase, ?_, hdial, htrace, hhc, hlen, hshape, hok⟩
  simp only [listen, hphase]

/-- C12 at a dial failure and a refused authentication followed by a
successful attempt: three calls and three dials, a retry cycle after each of
the two failures, one bring-up at the end. -/
theorem listen_retries_then_reads_witness :
    (listen_establish (newClient "u" "p" "Lisa Bot") retryScript).calls = 2 + 1 ∧
    (listen_establish (newClient "u" "p" "Lisa Bot") retryScript).effects.count
      ListenEffect.disconnect = 2 ∧
    (listen_establish (newClient "u" "p" "Lisa Bot") retryScript).effects.countP
      ListenEffect.isSleep = 2 ∧
    spec_retryCycles (listen_establish (newClient "u" "p" "Lisa Bot") retryScript).effects = 2 ∧
    (listen_establish (newClient "u" "p" "Lisa Bot") retryScript).effects.countP
      ListenEffect.isAvailable = 1 ∧
    (∃ (pre : List ListenEffect) (jid : String),
      (listen_establish (newClient "u" "p" "Lisa Bot") retryScript).effects =
        pre ++ [ListenEffect.available jid]) ∧
    (listen_establish (newClient "u" "p" "Lisa Bot") retryScript).phase =
      ListenPhase.reading ∧
    listen (newClient "u" "p" "Lisa Bot") retryScript [Received.other] =
      { hc := (listen_read (listen_establish (newClient "u" "p" "Lisa Bot") retryScript).hc
          [Received.other]).hc,
        effects := (listen_establish (newClient "u" "p" "Lisa Bot") retryScript).effects ++
          (listen_read (listen_establish (newClient "u" "p" "Lisa Bot") retryScript).hc
            [Received.other]).effects,
        calls := (listen_establish (newClient "u" "p" "Lisa Bot") retryScript).calls +
          (listen_read (listen_establish (newClient "u" "p" "Lisa Bot") retryScript).hc
            [Received.other]).calls,
        phase := (listen_read (listen_establish (newClient "u" "p" "Lisa Bot") retryScript).hc
          [Received.other]).phase } ∧
    (listen_establish (newClient "u" "p" "Lisa Bot") retryScript).effects.countP
      ListenEffect.isConnect = 2 + 1 ∧
    (listen_establish (newClient "u" "p" "Lisa Bot") retryScript).effects =
      spec_retryTrace (spec_callTraces (newClient "u" "p" "Lisa Bot") [dialFailure, authRefused])
        (establishConnection
          (spec_clientAfter (newClient "u" "p" "Lisa Bot") [dialFailure, authRefused])
          goodAttempt).effects ∧
    (listen_establish (newClient "u" "p" "Lisa Bot") retryScript).hc =
      (establishConnection
        (spec_clientAfter (newClient "u" "p" "Lisa Bot") [dialFailure, authRefused])
        goodAttempt).hc ∧
    (spec_callTraces (newClient "u" "p" "Lisa Bot") [dialFailure, authRefused]).length = 2 ∧
    (∀ t ∈ spec_callTraces (newClient "u" "p" "Lisa Bot") [dialFailure, authRefused],
      ∃ rest : List ListenEffect, t = ListenEffect.connect hipchatHost :: rest ∧
        ∀ e ∈ rest, e.quiet = true ∧ e.isConnect = false) ∧
    ∃ (pre : List ListenEffect) (jid nick : String) (rooms : List String),
      (establishConnection
        (spec_clientAfter (newClient "u" "p" "Lisa Bot") [dialFailure, authRefused])
        goodAttempt).effects =
        ListenEffect.connect hipchatHost ::
          (pre ++ [ListenEffect.join jid nick rooms, ListenEffect.available jid]) ∧
      ∀ e ∈ pre, e.quiet = true ∧ e.isConnect = false :=
  listen_retries_then_reads (newClient "u" "p" "Lisa Bot") [dialFailure, authRefused]
    goodAttempt [dialFailure] [Received.other]
    (by
      intro a ha c1
      simp only [List.mem_cons, List.mem_singleton, List.not_mem_nil, or_false] at ha
      rcases ha with rfl | rfl <;>
        simp [establishConnection, dialFailure, authRefused, initializeStream,
          initializeStream_loop])
    (by
      intro c1
      simp [establishConnection, goodAttempt, initializeStream, initializeStream_loop])

/-- The trace of the specification for the retry example, evaluated: the
dial that fails, a cycle, the call that is refused, a cycle, and the call that
succeeds; it is the trace of the establishment loop. -/
theorem spec_retryTrace_example :
    spec_retryTrace (spec_callTraces (newClient "u" "p" "Lisa Bot") [dialFailure, authRefused])
      (establishConnection
        (spec_clientAfter (newClient "u" "p" "Lisa Bot") [dialFailure, authRefused])
        goodAttempt).effects =
      [ListenEffect.connect "chat.hipchat.com",
       ListenEffect.disconnect, ListenEffect.sleep 10,
       ListenEffect.connect "chat.hipchat.com",
       ListenEffect.streamStart "u@chat.hipchat.com" "chat.hipchat.com",
       ListenEffect.startTLS,
       ListenEffect.useTLS "chat.hipchat.com",
       ListenEffect.streamStart "u@chat.hipchat.com" "chat.hipchat.com",
       ListenEffect.auth "u" "p" "bot",
       ListenEffect.disconnect, ListenEffect.sleep 10,
       ListenEffect.connect "chat.hipchat.com",
       ListenEffect.streamStart "u@chat.hipchat.com" "chat.hipchat.com",
       ListenEffect.startTLS,
       ListenEffect.useTLS "chat.hipchat.com",
       ListenEffect.streamStart "u@chat.hipchat.com" "chat.hipchat.com",
       ListenEffect.auth "u" "p" "bot",
       ListenEffect.vcardRequest "1_9@chat.hipchat.com" "",
       ListenEffect.discover "1_9@chat.hipchat.com" "conf.hipchat.com",
       ListenEffect.join "1_9@chat.hipchat.com" "Lisa Bot" ["ops@conf.hipchat.com"],
       ListenEffect.available "1_9@chat.hipchat.com"] ∧
    (listen_establish (newClient "u" "p" "Lisa Bot") retryScript).effects =
      spec_retryTrace (spec_callTraces (newClient "u" "p" "Lisa Bot") [dialFailure, authRefused])
        (establishConnection
          (spec_clientAfter (newClient "u" "p" "Lisa Bot") [dialFailure, authRefused])
          goodAttempt).effects := by
  decide


/-- The trace of the listener on the two failing attempts and the successful
one, evaluated. -/
theorem listen_establish_example :
    (listen_establish (newClient "u" "p" "Lisa Bot")
      [dialFailure, authRefused, goodAttempt, dialFailure]).effects =
      [ListenEffect.connect "chat.hipchat.com",
       ListenEffect.disconnect, ListenEffect.sleep 10,
       ListenEffect.connect "chat.hipchat.com",
       ListenEffect.streamStart "u@chat.hipchat.com" "chat.hipchat.com",
       ListenEffect.startTLS,
       ListenEffect.useTLS "chat.hipchat.com",
       ListenEffect.streamStart "u@chat.hipchat.com" "chat.hipchat.com",
       ListenEffect.auth "u" "p" "bot",
       ListenEffect.disconnect, ListenEffect.sleep 10,
       ListenEffect.connect "chat.hipchat.com",
       ListenEffect.streamStart "u@chat.hipchat.com" "chat.hipchat.com",
       ListenEffect.startTLS,
       ListenEffect.useTLS "chat.hipchat.com",
       ListenEffect.streamStart "u@chat.hipchat.com" "chat.hipchat.com",
       ListenEffect.auth "u" "p" "bot",
       ListenEffect.vcardRequest "1_9@chat.hipchat.com" "",
       ListenEffect.discover "1_9@chat.hipchat.com" "conf.hipchat.com",
       ListenEffect.join "1_9@chat.hipchat.com" "Lisa Bot" ["ops@conf.hipchat.com"],
       ListenEffect.available "1_9@chat.hipchat.com"] := by
  decide

/-! ### The main loop -/

/-- The main loop after an event whose pass does not leave the loop. -/
theorem run_loop_cons_continue (matchString : String → String → Bool)
    (view : String → Except String apiUser) (hc : hipchatClient) (ev : Event)
    (rest : List Event) (r : StepResult)
    (hs : run_select matchString view hc ev = Except.ok r) (hstop : r.stop = false) :
    run_loop matchString view hc (ev :: rest) =
      { hc := (run_loop matchString view r.hc rest).hc,
        effects := r.effects ++ (run_loop matchString view r.hc rest).effects,
        handled := (run_loop matchString view r.hc rest).handled + 1,
        ending := (run_loop matchString view r.hc rest).ending } := by
  simp only [run_loop, hs, hstop, Bool.false_eq_true, if_false]

/-- The main loop on a list of events that it handles without leaving goes on
with the events that follow, from the client it has reached. -/
theorem run_loop_append (matchString : String → String → Bool)
    (view : String → Except String apiUser) (hc : hipchatClient) (pre evs : List Event)
    (hwait : (run_loop matchString view hc pre).ending = LoopEnd.waiting) :
    run_loop matchString view hc (pre ++ evs) =
      { hc := (run_loop matchString view (run_loop matchString view hc pre).hc evs).hc,
        effects := (run_loop matchString view hc pre).effects ++
          (run_loop matchString view (run_loop matchString view hc pre).hc evs).effects,
        handled := (run_loop matchString view (run_loop matchString view hc pre).hc evs).handled +
          (run_loop matchString view hc pre).handled,
        ending := (run_loop matchString view (run_loop matchString view hc pre).hc evs).ending } := by
  induction pre generalizing hc with
  | nil => simp [run_loop]
  | cons ev pre ih =>
    cases hs : run_select matchString view hc ev with
    | error p => simp [run_loop, hs] at hwait
    | ok r =>
      cases hstop : r.stop with
      | true => simp [run_loop, hs, hstop] at hwait
      | false =>
        rw [run_loop_cons_continue matchString view hc ev pre r hs hstop] at hwait ⊢
        rw [List.cons_append, run_loop_cons_continue matchString view hc ev _ r hs hstop,
          ih r.hc hwait]
        simp [Nat.add_assoc]

/-- C11: a command query with action `disengage` is handled by leaving the
main loop: the pass writes nothing, neither a stanza nor a query, the client
is as before, and of the events that follow none is handled. -/
theorem disengage_ends_loop (matchString : String → String → Bool)
    (view : String → Except String apiUser) (hc : hipchatClient) (rid : String)
    (query : Query) (cmd : CommandBlock) (rest : List Event)
    (htype : query.Type_ = "command") (hcmd : query.Command = some cmd)
    (hact : cmd.Action = "disengage") :
    run_fromPris hc rid query = Except.ok { hc := hc, effects := [], stop := true } ∧
    run_loop matchString view hc (Event.fromPris query rid :: rest) =
      { hc := hc, effects := [], handled := 1, ending := LoopEnd.stopped } := by
  have hstep : run_fromPris hc rid query =
      Except.ok { hc := hc, effects := [], stop := true } := by
    simp only [run_fromPris, htype, hcmd, hact, if_true]
  exact ⟨hstep, by simp only [run_loop, run_select, hstep, if_true]⟩

/-- C11 at a `disengage` command followed by a stanza and a keepalive tick. -/
theorem disengage_ends_loop_witness :
    run_fromPris lisaClient "r1" disengageQuery =
      Except.ok { hc := lisaClient, effects := [], stop := true } ∧
    run_loop literalMatchString bobView lisaClient
        (Event.fromPris disengageQuery "r1" ::
          [Event.messageFromHC scenarioA, Event.keepAlive]) =
      { hc := lisaClient, effects := [], handled := 1, ending := LoopEnd.stopped } :=
  disengage_ends_loop literalMatchString bobView lisaClient "r1" disengageQuery
    { Id := "1", Action := "disengage", Type_ := "", Data := "", Map := GoMap.empty,
      Error := "" }
    [Event.messageFromHC scenarioA, Event.keepAlive] rfl rfl rfl

/-- A `disengage` command after events that the loop has handled adds nothing
to what was written and ends the loop, whatever follows. -/
theorem run_loop_disengage_after (matchString : String → String → Bool)
    (view : String → Except String apiUser) (hc : hipchatClient) (pre rest : List Event)
    (rid : String) (query : Query) (cmd : CommandBlock)
    (hwait : (run_loop matchString view hc pre).ending = LoopEnd.waiting)
    (htype : query.Type_ = "command") (hcmd : query.Command = some cmd)
    (hact : cmd.Action = "disengage") :
    run_loop matchString view hc (pre ++ Event.fromPris query rid :: rest) =
      { hc := (run_loop matchString view hc pre).hc,
        effects := (run_loop matchString view hc pre).effects,
        handled := (run_loop matchString view hc pre).handled + 1,
        ending := LoopEnd.stopped } := by
  have hstep : run_fromPris (run_loop matchString view hc pre).hc rid query =
      Except.ok { hc := (run_loop matchString view hc pre).hc, effects := [], stop := true } := by
    simp only [run_fromPris, htype, hcmd, hact, if_true]
  rw [run_loop_append matchString view hc pre _ hwait]
  simp [run_loop, run_select, hstep, Nat.add_comm]

/-! ### The index panic of `populateUser` -/

/-- The outcomes of `populateUser`: a panic, exactly when no `_` stands before
the first `@` of the identity; otherwise the returned lookup error with the
client as it was, or the fetched user recorded in all four indexes. -/
theorem populateUser_outcomes (view : String → Except String apiUser) (c : hipchatClient)
    (jid : String) :
    ('_' ∉ jid.data.takeWhile (fun ch => ch ≠ '@') ∧
      ∃ p, populateUser view c jid = Except.error p) ∨
    ('_' ∈ jid.data.takeWhile (fun ch => ch ≠ '@') ∧
      ((∃ err, populateUser view c jid = Except.ok (c, some err)) ∨
        ∃ (c1 : hipchatClient) (u : hipchatUser),
          populateUser view c jid = Except.ok (c1, none) ∧
          c1.usersByName u.Name = some u ∧ c1.usersByMention u.Mention = some u ∧
          c1.usersByJid u.Jid = some u ∧ c1.usersByEmail u.Email = some u)) := by
  have hiff := populateUser_id_ok_iff jid
  unfold populateUser
  cases hid : populateUser_id jid with
  | error p =>
    left
    refine ⟨?_, p, rfl⟩
    intro hmem
    obtain ⟨id, h⟩ := hiff.mpr hmem
    rw [hid] at h
    cases h
  | ok id =>
    right
    refine ⟨hiff.mp ⟨id, hid⟩, ?_⟩
    cases hv : view id with
    | error err => exact Or.inl ⟨err, by simp only [hv]⟩
    | ok user =>
      right
      simp only [hv]
      exact ⟨_, { Jid := user.XmppJid, Name := user.Name, Mention := user.MentionName,
                  Email := user.Email }, rfl, by simp, by simp, by simp, by simp⟩

/-- C13 fails on the code: for the sender identity `bob@chat.hipchat.com`,
which has no `_` before the `@`, `populateUser` panics on the index `[1]`; the
router, which calls it for the stanza of this unknown sender, panics with it,
and the main loop ends on that event. -/
theorem populateUser_no_underscore_panics :
    populateUser bobView lisaClient "bob@chat.hipchat.com" =
      Except.error "index out of range" ∧
    run_messageFromHC literalMatchString bobView lisaClient scenarioANoUnderscore =
      Except.error "index out of range" ∧
    run_loop literalMatchString bobView lisaClient
        [Event.messageFromHC scenarioANoUnderscore, Event.keepAlive] =
      { hc := lisaClient, effects := [], handled := 1,
        ending := LoopEnd.panicked "index out of range" } :=
  ⟨rfl, rfl, rfl⟩

end Hipchat
